import Mathlib

/-!
# new_bot.js: session registry, request correlator and account linking

A shallow embedding of the hub in `src/new_bot.js`.

* The three MySQL tables (`servers`, `users`, `verification`) are lists of rows; every
  `pool.query` of the source is one function on `Store`, named after what its SQL text does.
  The auto-increment `id` columns are never read by a handler and are left out.
* The callbacks of `pool.query` and of the `bot.*` calls run at once and with `err` unset:
  a handler is one atomic step `Hub → Hub`. Where the source would rethrow a store error
  that a message can provoke (a NULL written into a NOT NULL column) the step is `none`.
* Everything a handler does to the outside world (socket emits, disconnects, platform calls,
  webhook sends, the SQL statements themselves) is appended to `Hub.trace`, oldest first.
  Console output is not traced.
-/

namespace NewBot

/-! ## Values on the wire -/

/-- Identity of one socket.io connection. -/
abbrev SocketId := Nat

/-- Scalar JavaScript values that occur in payloads. -/
inductive Atom where
  | undefined
  | null
  | bool (b : Bool)
  | str (s : String)
  deriving DecidableEq, Repr

/-- An `Option String` read as a JavaScript value: an absent field is `undefined`. -/
def Atom.ofOpt : Option String → Atom
  | none => Atom.undefined
  | some s => Atom.str s

/-! ## The store -/

/-- Row of table `servers` (lines 24-30). -/
structure ServerRow where
  serverID : String
  token : String
  deriving DecidableEq, Repr

/-- Row of table `users` (lines 32-44): a linked account. -/
structure UserRow where
  user : String
  userID : String
  roleID : String
  serverID : String
  username : String
  uuid : String
  deriving DecidableEq, Repr

/-- Row of table `verification` (lines 46-56): a pending verification. -/
structure VerificationRow where
  user : String
  userID : String
  serverID : String
  channelID : String
  uuid : String
  code : String
  deriving DecidableEq, Repr

/-- The database behind `pool`. `foldCase` is the one property of the column collation the
queries depend on: whether string comparison ignores letter case (the MySQL default) or
not (a binary collation). The source does not fix it, so it is part of the state. -/
structure Store where
  servers : List ServerRow
  users : List UserRow
  verification : List VerificationRow
  foldCase : Bool
  deriving DecidableEq, Repr

/-- ASCII lower-casing of one character. -/
def lowerChar (c : Char) : Char :=
  if 65 ≤ c.toNat ∧ c.toNat ≤ 90 then Char.ofNat (c.toNat + 32) else c

/-- The call `toLowerCase()` as far as ASCII can see it: the ASCII letters, and the two
characters whose lower-case form contains an ASCII letter (KELVIN SIGN U+212A becomes
`k`, U+0130 becomes `i` followed by U+0307). Every other character is left in place:
JavaScript maps it to a character outside ASCII, as it is itself. So the tags that
`/(@\w+)/g` finds in the result (line 151) and the comparisons of a command name with
`verify` and `unlink` (lines 744, 784) are those of the source. -/
def toLowerCase : List Char → List Char
  | [] => []
  | c :: cs =>
    if c = Char.ofNat 0x212A then 'k' :: toLowerCase cs
    else if c = Char.ofNat 0x130 then 'i' :: Char.ofNat 0x307 :: toLowerCase cs
    else lowerChar c :: toLowerCase cs

/-- Comparison of two characters under the collation. -/
def sqlCharEq (fold : Bool) (a b : Char) : Bool :=
  if fold then lowerChar a == lowerChar b else a == b

/-- SQL `col = value` on strings under the collation. -/
def sqlEq (fold : Bool) (a b : String) : Bool :=
  if fold then a.data.map lowerChar == b.data.map lowerChar else a == b

/-- SQL `col = ?` where the bound parameter may be NULL (JavaScript `null`/`undefined`):
a comparison with NULL selects nothing. -/
def sqlEqParam (fold : Bool) (col : String) : Option String → Bool
  | none => false
  | some v => sqlEq fold col v

/-- `SELECT * FROM servers WHERE serverID = ? AND token = ?` (line 679). -/
def Store.selectServer (st : Store) (serverID : String) (token : String) : List ServerRow :=
  st.servers.filter fun r => sqlEq st.foldCase r.serverID serverID && sqlEq st.foldCase r.token token

/-- `SELECT * FROM verification WHERE uuid = ? AND code = ? AND serverID = ?`
(lines 241 and 510). -/
def Store.selectVerification (st : Store) (uuid code : Option String) (serverID : String) :
    List VerificationRow :=
  st.verification.filter fun r =>
    sqlEqParam st.foldCase r.uuid uuid && sqlEqParam st.foldCase r.code code
      && sqlEq st.foldCase r.serverID serverID

/-- `SELECT * FROM users WHERE uuid = ? AND serverID = ?` (lines 247 and 519). -/
def Store.selectUsersByUuid (st : Store) (uuid : Option String) (serverID : String) :
    List UserRow :=
  st.users.filter fun r => sqlEqParam st.foldCase r.uuid uuid && sqlEq st.foldCase r.serverID serverID

/-- `SELECT * FROM users WHERE username = ? AND serverID = ?` (`getUser`, line 656). -/
def Store.selectUsersByUsername (st : Store) (username : Option String) (serverID : String) :
    List UserRow :=
  st.users.filter fun r =>
    sqlEqParam st.foldCase r.username username && sqlEq st.foldCase r.serverID serverID

/-- `SELECT * FROM users WHERE userID = ? AND serverID = ?` (lines 805 and 844). -/
def Store.selectUsersByUserID (st : Store) (userID : String) (serverID : String) :
    List UserRow :=
  st.users.filter fun r => sqlEq st.foldCase r.userID userID && sqlEq st.foldCase r.serverID serverID

/-- `INSERT INTO users(user, userID, roleID, serverID, username, uuid) VALUES(...)`
(lines 254 and 526). -/
def Store.insertUser (st : Store) (row : UserRow) : Store :=
  { st with users := st.users ++ [row] }

/-- `INSERT INTO verification SET ?` (line 209). -/
def Store.insertVerification (st : Store) (row : VerificationRow) : Store :=
  { st with verification := st.verification ++ [row] }

/-- `DELETE FROM verification WHERE serverID = ?` (lines 266 and 538). -/
def Store.deleteVerification (st : Store) (serverID : String) : Store :=
  { st with verification := st.verification.filter fun r => !sqlEq st.foldCase r.serverID serverID }

/-- `DELETE FROM users WHERE userID = ? AND serverID = ?` (line 786). -/
def Store.deleteUsersByUserID (st : Store) (userID : String) (serverID : String) : Store :=
  { st with users := st.users.filter fun r =>
      !(sqlEq st.foldCase r.userID userID && sqlEq st.foldCase r.serverID serverID) }

/-- SQL `text LIKE pattern` with the MySQL defaults: `%` is any run of characters, `_` any
one character, a backslash quotes the next pattern character, anything else (the `!`
included) stands for itself. -/
def sqlLike (fold : Bool) : List Char → List Char → Bool
  | [], t => t.isEmpty
  | p :: ps, t =>
    if p = '%' then t.tails.any fun s => sqlLike fold ps s
    else if p = '_' then
      match t with
      | [] => false
      | _ :: ts => sqlLike fold ps ts
    else if p = '\\' then
      match ps with
      | [] =>
        match t with
        | [c] => sqlCharEq fold c p
        | _ => false
      | q :: qs =>
        match t with
        | [] => false
        | c :: ts => sqlCharEq fold c q && sqlLike fold qs ts
    else
      match t with
      | [] => false
      | c :: ts => sqlCharEq fold c p && sqlLike fold ps ts

/-- The query of line 750, whose LIKE pattern is spliced into the SQL text:
`SELECT * FROM users WHERE username LIKE '<name>%' AND serverID = ?`. -/
def Store.selectUsersLike (st : Store) (name : List Char) (serverID : String) : List UserRow :=
  st.users.filter fun r =>
    sqlLike st.foldCase (name ++ ['%']) r.username.data && sqlEq st.foldCase r.serverID serverID

/-! ## Effects -/

/-- Values of payload fields. -/
inductive Val where
  | atom (a : Atom)
  | obj (fields : List (String × Atom))
  | row (r : Option UserRow)
  | rows (rs : List UserRow)
  | strs (l : List String)
  deriving DecidableEq, Repr

/-- A payload: the fields of a JavaScript object literal, in source order. -/
abbrev Payload := List (String × Val)

/-- What a handler does to the outside world. -/
inductive Effect where
  /-- The call `pool.query(sql, params)`. -/
  | query (sql : String) (params : List Atom)
  /-- The call `socket.emit(event, data)` on the given connection. -/
  | emit (socket : SocketId) (event : String) (data : Payload)
  /-- The call `socket.disconnect()`. -/
  | disconnect (socket : SocketId)
  /-- The call `bot.sendMessage` with its fields `to`, `message` and `embed`. -/
  | sendMessage (target : Option String) (message : Option String) (embed : Option String)
  /-- The call `bot.addToRole(userID, serverID, role)`. -/
  | addToRole (userID serverID role : String)
  /-- The call `bot.editNickname(userID, serverID, nick)`. -/
  | editNickname (userID serverID : String) (nick : Option String)
  /-- The call `bot.createDMChannel(userID)`. -/
  | createDMChannel (userID : Option String)
  /-- The call `bot.addReaction(channelID, messageID, reaction)`. -/
  | addReaction (channelID messageID reaction : Option String)
  /-- The call `bot.deleteMessage(channelID, messageID)`. -/
  | deleteMessage (channelID messageID : Option String)
  /-- The call `webhookClient.send(message, username, avatarURL)` of one channel. -/
  | webhookSend (webhookID webhookToken message username avatarURL : String)
  deriving DecidableEq, Repr

/-- What the chat platform answers to the calls whose result the hub reads. -/
structure Platform where
  /-- Value of `bot.id`. -/
  botId : String
  /-- Field `res.id` of `bot.createDMChannel(userID, cb)`. -/
  dmChannel : Option String → String
  /-- Field `res.id` of `bot.sendMessage(to, cb)`: the id of the message sent to `to`. -/
  sentMessage : Option String → String
  /-- Argument `err` of the callback of `bot.addReaction`, unset on success. -/
  reactionError : Option String → Option String → Option String → Option String

/-- The `res` object handed to the callback of `bot.sendMessage`. -/
def Platform.sendResult (env : Platform) (target : Option String) : Val :=
  Val.obj [("id", Atom.str (env.sentMessage target)), ("channel_id", Atom.ofOpt target)]

/-! ## Channels, sessions and the hub -/

/-- Object of class `Channel` (lines 94-109); the webhook client is its two credentials. -/
structure Channel where
  webhookID : String
  webhookToken : String
  chat : Bool
  info : Bool
  requireVerification : Bool
  adminCommands : Bool
  deriving DecidableEq, Repr

/-- One element of `data.channels` in an `options` message. -/
structure ChannelDecl where
  channelID : String
  webhookID : String
  webhookToken : String
  chat : Bool
  info : Bool
  requireVerification : Bool
  adminCommands : Bool
  deriving DecidableEq, Repr

/-- Assignment `o[k] = v` on a JavaScript object kept as its entries in insertion order. -/
def objSet {α : Type} (o : List (String × α)) (k : String) (v : α) : List (String × α) :=
  if o.any (fun e => e.1 == k) then o.map (fun e => if e.1 == k then (k, v) else e)
  else o ++ [(k, v)]

/-- Read `o[k]` on a JavaScript object kept as its entries. -/
def objGet {α : Type} (o : List (String × α)) (k : String) : Option α :=
  (o.find? (fun e => e.1 == k)).map (fun e => e.2)

/-- Object of class `Server` (lines 111-118): one peer session. -/
structure Server where
  serverID : String
  channels : List (String × Channel)
  defaultRole : String
  enforceNickname : Bool
  socket : SocketId
  deriving DecidableEq, Repr

/-- State of the process and of its collaborators. `servers` is the module-level table of
line 664, `closed` the connections that have been disconnected by either side. -/
structure Hub where
  store : Store
  servers : String → Option Server
  closed : List SocketId
  trace : List Effect

/-- Record one effect. -/
def Hub.push (h : Hub) (e : Effect) : Hub :=
  { h with trace := h.trace ++ [e] }

/-- The call `socket.disconnect()`: the connection is closed from the hub side. -/
def Hub.socketDisconnect (h : Hub) (s : SocketId) : Hub :=
  { h with closed := s :: h.closed, trace := h.trace ++ [Effect.disconnect s] }

/-! ## Connection handling (lines 664-717) -/

/-- Payload of an `options` message. -/
structure OptionsData where
  serverID : String
  enforceNickname : Bool
  token : Option String
  defaultRole : String
  channels : List ChannelDecl
  deriving DecidableEq, Repr

/-- The loop of lines 688-699 building the channel object of a new session. -/
def buildChannels (decls : List ChannelDecl) : List (String × Channel) :=
  decls.foldl
    (fun channels c =>
      objSet channels c.channelID
        ⟨c.webhookID, c.webhookToken, c.chat, c.info, c.requireVerification, c.adminCommands⟩)
    []

/-- Handler of `options` on connection `socket` (lines 671-715). -/
def onOptions (h : Hub) (socket : SocketId) (data : OptionsData) : Hub :=
  match data.token with
  | some token =>
    let h1 := h.push (Effect.query "SELECT * FROM `servers` WHERE `serverID` = ? AND `token` = ?;"
      [Atom.str data.serverID, Atom.str token])
    let res := h.store.selectServer data.serverID token
    if res.length = 1 then
      let h2 :=
        match h1.servers data.serverID with
        | some server => h1.socketDisconnect server.socket
        | none => h1
      let server : Server :=
        ⟨data.serverID, buildChannels data.channels, data.defaultRole, data.enforceNickname, socket⟩
      { h2 with servers := fun k => if k = data.serverID then some server else h2.servers k }
    else
      h1.socketDisconnect socket
  | none => h.socketDisconnect socket

/-- The transport reports that the connection of session `srv` is gone; the listener of
lines 194-196 only writes to the console. -/
def Server.onDisconnect (srv : Server) (h : Hub) : Hub :=
  { h with closed := srv.socket :: h.closed }

/-! ## Peer events of one session (listeners registered by the `Server` constructor) -/

/-- Payload of `vcb`. `error` is the truth value of `data.error`. -/
structure VcbData where
  user : String
  userID : String
  channelID : String
  uuid : String
  code : String
  error : Bool
  deriving DecidableEq, Repr

/-- Listener of `vcb` (lines 199-233). -/
def Server.onVcb (srv : Server) (h : Hub) (data : VcbData) : Hub :=
  if !data.error then
    let h1 := h.push (Effect.query "INSERT INTO `verification` SET ?;"
      [Atom.str data.user, Atom.str data.userID, Atom.str data.channelID,
        Atom.str srv.serverID, Atom.str data.uuid, Atom.str data.code])
    let h2 := { h1 with store := (h1.store.insertVerification
      (VerificationRow.mk data.user data.userID srv.serverID data.channelID data.uuid data.code)) }
    h2.push (Effect.sendMessage (some data.channelID)
      (some "Verification request sent! Please complete verification process in game!") none)
  else
    h.push (Effect.sendMessage (some data.channelID)
      (some ("That username doesn't exist or the player is not in game! " ++
        "Please make sure you are logged into the server and the username matches!")) none)

/-- Text of the success message of lines 271 and 543. -/
def linkedMessage (userID : String) (username : String) : String :=
  "<@" ++ userID ++ "> Your Discord account is now linked to Minecraft player " ++ username ++ "!"

/-- Payload of the peer event `verify`. -/
structure VerifyData where
  uuid : String
  username : String
  code : String
  deriving DecidableEq, Repr

/-- Listener of `verify` (lines 235-297). -/
def Server.onVerify (srv : Server) (h : Hub) (data : VerifyData) : Hub :=
  let h1 := h.push (Effect.query
    "SELECT * FROM `verification` WHERE `uuid` = ? AND `code` = ? AND `serverID` =?;"
    [Atom.str data.uuid, Atom.str data.code, Atom.str srv.serverID])
  -- `res.length === 1`, `row = res[0]`
  match h1.store.selectVerification (some data.uuid) (some data.code) srv.serverID with
  | [row] =>
    let h2 := h1.push (Effect.query "SELECT * FROM `users` WHERE `uuid` = ? AND `serverID` = ?;"
      [Atom.str data.uuid, Atom.str srv.serverID])
    if (h2.store.selectUsersByUuid (some data.uuid) srv.serverID).length = 0 then
      let h3 := h2.push (Effect.query
        "INSERT INTO `users`(`user`, `userID`, `roleID`, `serverID`, `username`, `uuid`) VALUES(?, ?, ?, ?, ?, ?);"
        [Atom.str row.user, Atom.str row.userID, Atom.str srv.defaultRole,
          Atom.str srv.serverID, Atom.str data.username, Atom.str data.uuid])
      let h4 := { h3 with store := (h3.store.insertUser
        (UserRow.mk row.user row.userID srv.defaultRole srv.serverID data.username data.uuid)) }
      let h5 := h4.push (Effect.query "DELETE FROM `verification` WHERE `serverID` = ?;"
        [Atom.str row.serverID])
      let h6 := { h5 with store := h5.store.deleteVerification row.serverID }
      let h7 := h6.push (Effect.sendMessage (some row.channelID)
        (some (linkedMessage row.userID data.username)) none)
      let h8 := h7.push (Effect.addToRole row.userID srv.serverID srv.defaultRole)
      let h9 :=
        if srv.enforceNickname then
          h8.push (Effect.editNickname row.userID srv.serverID (some data.username))
        else h8
      h9.push (Effect.emit srv.socket "vcb"
        [("user", Val.atom (Atom.str row.user)), ("userID", Val.atom (Atom.str row.userID)),
          ("uuid", Val.atom (Atom.str data.uuid))])
    else h2
  | _ => h1

/-! ## The request correlator (lines 407-643) -/

/-- Payload of `request`; a field that is absent or `null` is `none`. `embed` is passed
through unread, so it is kept as a string. -/
structure RequestData where
  type : Atom
  id : Atom
  username : Option String
  userID : Option String
  message : Option String
  embed : Option String
  uuid : Option String
  code : Option String
  channelID : Option String
  messageID : Option String
  reaction : Option String
  deriving DecidableEq, Repr

/-- Object emitted as `callback`: `id` and `error` with the other fields in between or after,
as each call site writes them. -/
def callbackOf (srv : Server) (fields : Payload) : Effect :=
  Effect.emit srv.socket "callback" fields

/-- Method `getUser` (lines 655-660): the query, then its rows. -/
def Server.getUser (srv : Server) (h : Hub) (username : Option String) : Hub × List UserRow :=
  (h.push (Effect.query "SELECT * FROM `users` WHERE `username` = ? AND `serverID` = ?;"
      [Atom.ofOpt username, Atom.str srv.serverID]),
    h.store.selectUsersByUsername username srv.serverID)

/-- Case `verify` of the request switch (lines 509-582). -/
def Server.requestVerify (srv : Server) (h : Hub) (data : RequestData) : Option Hub :=
  let h1 := h.push (Effect.query
    "SELECT * FROM `verification` WHERE `uuid` = ? AND `code` = ? AND `serverID` = ?;"
    [Atom.ofOpt data.uuid, Atom.ofOpt data.code, Atom.str srv.serverID])
  -- `res.length === 1`, `row = res[0]`
  match h1.store.selectVerification data.uuid data.code srv.serverID with
  | [row] =>
    let h2 := h1.push (Effect.query "SELECT * FROM `users` WHERE `uuid` = ? AND `serverID` = ?;"
      [Atom.ofOpt data.uuid, Atom.str srv.serverID])
    if (h2.store.selectUsersByUuid data.uuid srv.serverID).length = 0 then
      let h3 := h2.push (Effect.query
        "INSERT INTO `users`(`user`, `userID`, `roleID`, `serverID`, `username`, `uuid`) VALUES(?, ?, ?, ?, ?, ?);"
        [Atom.str row.user, Atom.str row.userID, Atom.str srv.defaultRole,
          Atom.str srv.serverID, Atom.ofOpt data.username, Atom.ofOpt data.uuid])
      -- columns `username` and `uuid` are NOT NULL: without a value the insert fails and
      -- the error is rethrown
      match data.username, data.uuid with
      | some username, some uuid =>
        let h4 := { h3 with store := (h3.store.insertUser
          (UserRow.mk row.user row.userID srv.defaultRole srv.serverID username uuid)) }
        let h5 := h4.push (Effect.query "DELETE FROM `verification` WHERE `serverID` = ?;"
          [Atom.str srv.serverID])
        let h6 := { h5 with store := h5.store.deleteVerification srv.serverID }
        let h7 := h6.push (Effect.sendMessage (some row.channelID)
          (some (linkedMessage row.userID username)) none)
        let h8 := h7.push (Effect.addToRole row.userID srv.serverID srv.defaultRole)
        let h9 :=
          if srv.enforceNickname then
            h8.push (Effect.editNickname row.userID srv.serverID (some username))
          else h8
        some (h9.push (callbackOf srv
          [("id", Val.atom data.id), ("error", Val.atom (Atom.bool false)),
            ("message", Val.atom (Atom.str "Success!"))]))
      | _, _ => none
    else
      some (h2.push (callbackOf srv
        [("id", Val.atom data.id), ("error", Val.atom (Atom.bool true)),
          ("message", Val.atom (Atom.str "User already exists!"))]))
  | _ =>
    some (h1.push (callbackOf srv
      [("id", Val.atom data.id), ("error", Val.atom (Atom.bool true)),
        ("message", Val.atom (Atom.str "No user to be verified!"))]))

/-- Case `dm` of the request switch (lines 422-508). -/
def Server.requestDm (env : Platform) (srv : Server) (h : Hub) (data : RequestData) : Hub :=
  if data.userID.isSome then
    let h1 := h.push (Effect.createDMChannel data.userID)
    let channelID := env.dmChannel data.userID
    if data.embed.isSome then
      let h2 := h1.push (Effect.sendMessage (some channelID) data.message data.embed)
      h2.push (callbackOf srv
        [("id", Val.atom data.id), ("res", env.sendResult (some channelID)),
          ("error", Val.atom (Atom.bool false)), ("message", Val.atom (Atom.str "Success!"))])
    else
      let h2 := h1.push (Effect.sendMessage (some channelID) data.message none)
      h2.push (callbackOf srv
        [("id", Val.atom data.id), ("res", env.sendResult (some channelID)),
          ("error", Val.atom (Atom.bool false)), ("message", Val.atom (Atom.str "Success!"))])
  else if data.username.isSome then
    let (h1, res) := srv.getUser h data.username
    match res with
    | r :: _ =>
      let h2 := h1.push (Effect.createDMChannel (some r.userID))
      let channelID := env.dmChannel (some r.userID)
      -- both branches of `embed != null` send the message without the embed
      let h3 := h2.push (Effect.sendMessage (some channelID) data.message none)
      h3.push (callbackOf srv
        [("id", Val.atom data.id), ("res", env.sendResult (some channelID)),
          ("error", Val.atom (Atom.bool false)), ("username", Val.atom (Atom.str r.username)),
          ("message", Val.atom (Atom.str "Success!"))])
    | [] =>
      h1.push (callbackOf srv
        [("id", Val.atom data.id), ("error", Val.atom (Atom.bool true)),
          ("message", Val.atom (Atom.str "No user found!"))])
  else h

/-- Listener of `request` (lines 407-643): the switch on `data.type`. -/
def Server.onRequest (env : Platform) (srv : Server) (h : Hub) (data : RequestData) :
    Option Hub :=
  if data.type = Atom.str "user" then
    let (h1, res) := srv.getUser h data.username
    some (h1.push (callbackOf srv
      [("id", Val.atom data.id), ("error", Val.atom (Atom.bool false)),
        ("user", Val.row res.head?)]))
  else if data.type = Atom.str "dm" then
    some (srv.requestDm env h data)
  else if data.type = Atom.str "verify" then
    srv.requestVerify h data
  else if data.type = Atom.str "embed" then
    let h1 := h.push (Effect.sendMessage data.channelID data.message data.embed)
    some (h1.push (callbackOf srv
      [("id", Val.atom data.id),
        ("messageID", Val.atom (Atom.str (env.sentMessage data.channelID))),
        ("channelID", Val.atom (Atom.ofOpt data.channelID)),
        ("error", Val.atom (Atom.bool false)), ("message", Val.atom (Atom.str "Success!"))]))
  else if data.type = Atom.str "react" then
    let h1 := h.push (Effect.addReaction data.channelID data.messageID data.reaction)
    match env.reactionError data.channelID data.messageID data.reaction with
    | none =>
      some (h1.push (callbackOf srv
        [("id", Val.atom data.id), ("error", Val.atom (Atom.bool false)),
          ("message", Val.atom (Atom.str "Success!"))]))
    | some err =>
      some (h1.push (callbackOf srv
        [("id", Val.atom data.id), ("error", Val.atom (Atom.bool true)),
          ("message", Val.atom (Atom.str err))]))
  else if data.type = Atom.str "delete" then
    let h1 := h.push (Effect.deleteMessage data.channelID data.messageID)
    some (h1.push (callbackOf srv
      [("id", Val.atom data.id), ("error", Val.atom (Atom.bool false)),
        ("message", Val.atom (Atom.str "deleted message!"))]))
  else
    some (h.push (callbackOf srv
      [("id", Val.atom data.id), ("error", Val.atom (Atom.bool true)),
        ("message", Val.atom (Atom.str "Invalid request type!")), ("type", Val.atom data.type)]))

/-! ## Platform messages (lines 724-891) -/

/-- The call `split(' ')` on a string. -/
def splitSpaces : List Char → List (List Char)
  | [] => [[]]
  | c :: cs =>
    match splitSpaces cs with
    | [] => [[c]]
    | w :: ws => if c = ' ' then [] :: w :: ws else (c :: w) :: ws

/-- The character class `[a-zA-Z0-9_]`. -/
def isWordChar (c : Char) : Bool :=
  (97 ≤ c.toNat && c.toNat ≤ 122) || (65 ≤ c.toNat && c.toNat ≤ 90)
    || (48 ≤ c.toNat && c.toNat ≤ 57) || c == '_'

/-- The call `replace(/[_]/g, "!_")`. -/
def escapeUnderscores : List Char → List Char
  | [] => []
  | c :: cs => if c = '_' then '!' :: '_' :: escapeUnderscores cs else c :: escapeUnderscores cs

/-- Lines 747-748: strip what is outside `[a-zA-Z0-9_]`, write `!_` for `_`, lower-case. -/
def sanitiseName (arg : List Char) : List Char :=
  (escapeUnderscores (arg.filter isWordChar)).map lowerChar

/-- SQL text of the query of line 750. -/
def likeQueryText (username : List Char) : String :=
  "SELECT * FROM `users` WHERE `username` LIKE '" ++ String.mk username ++ "%' AND `serverID` = ?;"

/-- Arguments of the `message` listener of the platform client, with what it reads of
`event`: `guildID` is `event.d.guild_id`, `messageID` is `event.d.id`, the two author
fields are those of `event.d.author`. `code` is the hex text of the 16 bytes that
`crypto.randomBytes` returns if the handler asks for them. A direct message (no guild)
is not covered. The name of a command other than `verify` and `unlink` is forwarded
lower-cased by `toLowerCase`, which leaves capital letters outside ASCII as they are. -/
structure BotMessage where
  user : String
  userID : String
  channelID : String
  message : String
  guildID : String
  messageID : String
  authorUsername : String
  authorDiscriminator : String
  code : String
  deriving DecidableEq, Repr

/-- Branch `!verify` (lines 744-783). -/
def onVerifyCommand (h : Hub) (server : Server) (m : BotMessage) (args : List (List Char)) :
    Hub :=
  match args with
  | [arg] =>
    let username := sanitiseName arg
    let h1 := h.push (Effect.query (likeQueryText username) [Atom.str m.guildID])
    if (h1.store.selectUsersLike username m.guildID).length = 0 then
      h1.push (Effect.emit server.socket "verify"
        [("discord", Val.obj [("username", Atom.str m.authorUsername),
            ("discriminator", Atom.str m.authorDiscriminator)]),
          ("user", Val.atom (Atom.str m.user)), ("userID", Val.atom (Atom.str m.userID)),
          ("channelID", Val.atom (Atom.str m.channelID)),
          ("username", Val.atom (Atom.str (String.mk arg))),
          ("code", Val.atom (Atom.str m.code))])
    else
      h1.push (Effect.sendMessage (some m.channelID) (some "That player is already verified!") none)
  | _ => h.push (Effect.sendMessage (some m.channelID) (some "Usage: !verify <username>") none)

/-- Branch `!unlink` (lines 784-802). -/
def onUnlinkCommand (h : Hub) (m : BotMessage) : Hub :=
  let h1 := h.push (Effect.query "DELETE FROM `users` WHERE `userID` = ? AND `serverID` = ?;"
    [Atom.str m.userID, Atom.str m.guildID])
  let affectedRows := (h1.store.selectUsersByUserID m.userID m.guildID).length
  let h2 := { h1 with store := (h1.store.deleteUsersByUserID m.userID m.guildID) }
  if affectedRows ≥ 1 then
    h2.push (Effect.sendMessage (some m.channelID) (some "Sucessfully unlinked your account!") none)
  else
    h2.push (Effect.sendMessage (some m.channelID)
      (some "Cannot unlink account. You are not verified!") none)

/-- Any other command (lines 803-834): forwarded to the peer. -/
def onOtherCommand (h : Hub) (server : Server) (m : BotMessage) (cmd : List Char)
    (args : List (List Char)) : Hub :=
  let h1 := h.push (Effect.query "SELECT * FROM `users` WHERE `userID` = ? AND `serverID` = ?;"
    [Atom.str m.userID, Atom.str m.guildID])
  let (username, uuid) :=
    match h1.store.selectUsersByUserID m.userID m.guildID with
    | [r] => (Atom.str r.username, Atom.str r.uuid)
    | _ => (Atom.null, Atom.null)
  h1.push (Effect.emit server.socket "command"
    [("sender", Val.obj [("username", username), ("user", Atom.str m.user),
        ("userID", Atom.str m.userID), ("uuid", uuid)]),
      ("author", Val.obj [("username", Atom.str m.authorUsername),
        ("discriminator", Atom.str m.authorDiscriminator)]),
      ("command", Val.atom (Atom.str (String.mk cmd))),
      ("channelID", Val.atom (Atom.str m.channelID)),
      ("messageID", Val.atom (Atom.str m.messageID)),
      ("args", Val.strs (args.map String.mk))])

/-- A message that is not a command (lines 836-887). -/
def onChatMessage (h : Hub) (server : Server) (channel : Channel) (m : BotMessage) : Hub :=
  if channel.chat then
    if channel.requireVerification then
      let h1 := h.push (Effect.query "SELECT * FROM `users` WHERE `userID` = ? AND `serverID` = ?;"
        [Atom.str m.userID, Atom.str m.guildID])
      match h1.store.selectUsersByUserID m.userID m.guildID with
      | [row] =>
        h1.push (Effect.emit server.socket "message"
          [("sender", Val.obj [("user", Atom.str m.user), ("userID", Atom.str m.userID),
              ("username", Atom.str row.username), ("uuid", Atom.str row.uuid)]),
            ("message", Val.atom (Atom.str m.message)),
            ("channelID", Val.atom (Atom.str m.channelID))])
      | _ =>
        let h2 := h1.push (Effect.deleteMessage (some m.channelID) (some m.messageID))
        h2.push (Effect.sendMessage (some m.channelID)
          (some "You must first verify your account before you can send messages here!") none)
    else
      h.push (Effect.emit server.socket "message"
        [("sender", Val.obj [("user", Atom.str m.user), ("userID", Atom.str m.userID),
            ("username", Atom.null)]),
          ("message", Val.atom (Atom.str m.message)),
          ("channelID", Val.atom (Atom.str m.channelID))])
  else h

/-- Listener of `message` of the platform client (lines 724-891). -/
def onMessage (env : Platform) (h : Hub) (m : BotMessage) : Hub :=
  match h.servers m.guildID with
  | none => h
  | some server =>
    match objGet server.channels m.channelID with
    | none => h
    | some channel =>
      if m.userID ≠ env.botId ∧ m.userID ≠ channel.webhookID then
        if m.message.data.take 1 = ['!'] then
          let args := splitSpaces (m.message.data.drop 1)
          let cmd := toLowerCase (args.headD [])
          let args := args.drop 1
          if cmd = "verify".data then onVerifyCommand h server m args
          else if cmd = "unlink".data then onUnlinkCommand h m
          else onOtherCommand h server m cmd args
        else onChatMessage h server channel m
      else h

/-! ## Chat relay and mention resolution (lines 146-179 and 647-653) -/

/-- The call `match(/(@\w+)/g)`: every `@` that is followed by a word character, with the
whole run of word characters after it, from left to right; `[]` stands for `null`. (A run
of word characters holds no `@`, so going on right after the `@` finds what going on
after the run finds.) -/
def matchTags : List Char → List (List Char)
  | [] => []
  | c :: cs =>
    if c = '@' ∧ cs.takeWhile isWordChar ≠ [] then
      ('@' :: cs.takeWhile isWordChar) :: matchTags cs
    else matchTags cs

/-- The loop of lines 154-157: every tag without its `@`, each followed by a comma, and
the last comma cut off. -/
def tagList (tags : List (List Char)) : List Char :=
  (tags.foldl (fun taglist tag => taglist ++ tag.drop 1 ++ [',']) []).dropLast

/-- The substrings of a string list that commas separate. -/
def splitCommas : List Char → List (List Char)
  | [] => [[]]
  | c :: cs =>
    match splitCommas cs with
    | [] => [[c]]
    | w :: ws => if c = ',' then [] :: w :: ws else (c :: w) :: ws

/-- SQL `FIND_IN_SET(str, strlist) > 0`: `str` is one of the substrings of `strlist`
between commas; never so when `strlist` is empty or `str` holds a comma. -/
def findInSet (fold : Bool) (str strlist : List Char) : Bool :=
  !strlist.isEmpty && !str.contains ',' &&
    (splitCommas strlist).any fun e => sqlEq fold (String.mk e) (String.mk str)

/-- `SELECT username, userID FROM users WHERE FIND_IN_SET(LOWER(username), ?) > 0`
(line 160). The statement has no condition on `serverID`. `LOWER` is taken on ASCII. -/
def Store.selectUsersInSet (st : Store) (taglist : List Char) : List UserRow :=
  st.users.filter fun r => findInSet st.foldCase (r.username.data.map lowerChar) taglist

/-- The expression `new RegExp("@" + username, "ig")` tried at the start of a text, for a
`username` without special characters (the usernames that `selectUsersInSet` returns are
made of word characters): the pattern, letter case ignored, is a prefix of the text. -/
def regexMatchAt : List Char → List Char → Bool
  | [], _ => true
  | _ :: _, [] => false
  | p :: ps, c :: cs => (lowerChar p == lowerChar c) && regexMatchAt ps cs

/-- The replacement text of `String.prototype.replace` for one match: in the template
`$$` is a dollar sign, `$&` the match, a dollar sign with a backtick the text before the
match and with an apostrophe the text after it; the expression has no groups, so every
other dollar sign stands for itself. -/
def getSubstitution (matched before after : List Char) : List Char → List Char
  | [] => []
  | [c] => [c]
  | c :: d :: rest =>
    if c = '$' then
      if d = '$' then '$' :: getSubstitution matched before after rest
      else if d = '&' then matched ++ getSubstitution matched before after rest
      else if d = Char.ofNat 96 then before ++ getSubstitution matched before after rest
      else if d = Char.ofNat 39 then after ++ getSubstitution matched before after rest
      else c :: getSubstitution matched before after (d :: rest)
    else c :: getSubstitution matched before after (d :: rest)

/-- The call `message.replace(regex, template)` for the expression `@name` with the flags
`ig`, reading the text from left to right. `skip` counts the characters of a match still
to pass over, `before` is the text already read. -/
def replaceMention (name template : List Char) : Nat → List Char → List Char → List Char
  | _, _, [] => []
  | skip + 1, before, c :: cs => replaceMention name template skip (before ++ [c]) cs
  | 0, before, c :: cs =>
    if regexMatchAt ('@' :: name) (c :: cs) then
      getSubstitution ((c :: cs).take (name.length + 1)) before (cs.drop name.length) template
        ++ replaceMention name template name.length (before ++ [c]) cs
    else c :: replaceMention name template 0 (before ++ [c]) cs

/-- The template of line 171: the platform mention of a user. -/
def mentionOf (userID : String) : List Char :=
  "<@!".data ++ userID.data ++ ">".data

/-- Body of the loop of lines 165-172 for one row of the lookup. -/
def resolveRow (message : List Char) (row : UserRow) : List Char :=
  replaceMention row.username.data (mentionOf row.userID) 0 [] message

/-- The avatar address of line 106. -/
def avatarURL (uuid : String) : String :=
  "https://minotar.net/cube/" ++ uuid ++ "/128.png"

/-- Method `sendMessage` of `Channel` (lines 103-108). -/
def Channel.sendMessage (channel : Channel) (h : Hub) (username uuid message : String) : Hub :=
  h.push (Effect.webhookSend channel.webhookID channel.webhookToken message username
    (avatarURL uuid))

/-- Method `sendMessage` of `Server` (lines 647-653): the loop over the entries of
`this.channels`. -/
def Server.sendMessage (srv : Server) (h : Hub) (username uuid message : String) : Hub :=
  srv.channels.foldl
    (fun h1 entry => if entry.2.chat then entry.2.sendMessage h1 username uuid message else h1) h

/-- Payload of `chat`. -/
structure ChatData where
  message : String
  username : String
  uuid : String
  deriving DecidableEq, Repr

/-- Listener of `chat` (lines 146-179). -/
def Server.onChat (srv : Server) (h : Hub) (data : ChatData) : Hub :=
  let tags := matchTags (toLowerCase data.message.data)
  if tags ≠ [] then
    let taglist := tagList tags
    let h1 := h.push (Effect.query
      "SELECT `username`, `userID` FROM `users` WHERE FIND_IN_SET(LOWER(`username`), ?) > 0;"
      [Atom.str (String.mk taglist)])
    let res := h1.store.selectUsersInSet taglist
    let message := res.foldl resolveRow data.message.data
    srv.sendMessage h1 data.username data.uuid (String.mk message)
  else
    srv.sendMessage h data.username data.uuid data.message

/-! ## Role events of one session (lines 316-390) -/

/-- Payload of `addrole`: the role is read from the field `role`. -/
structure AddRoleData where
  uuid : String
  role : String
  deriving DecidableEq, Repr

/-- Payload of `removerole`: the role is read from the field `roleID`. -/
structure RemoveRoleData where
  uuid : String
  roleID : String
  deriving DecidableEq, Repr

/-- SQL text of the lookup of lines 322 and 359. -/
def userIDQueryText : String :=
  "SELECT `userID` FROM `users` WHERE `uuid` = ? AND `serverID` = ?;"

/-- Listener of `addrole` (lines 316-351). -/
def Server.onAddRole (srv : Server) (h : Hub) (data : AddRoleData) : Hub :=
  let h1 := h.push (Effect.query userIDQueryText [Atom.str data.uuid, Atom.str srv.serverID])
  -- `res.length === 1`, `userID = res[0].userID`
  match h1.store.selectUsersByUuid (some data.uuid) srv.serverID with
  | [row] =>
    let h2 := h1.push (Effect.addToRole row.userID srv.serverID data.role)
    h2.push (Effect.emit srv.socket "addrolecb"
      [("uuid", Val.atom (Atom.str data.uuid)), ("roleID", Val.atom (Atom.str data.role)),
        ("success", Val.atom (Atom.bool true))])
  | _ =>
    h1.push (Effect.emit srv.socket "addrolecb"
      [("uuid", Val.atom (Atom.str data.uuid)), ("roleID", Val.atom (Atom.str data.role)),
        ("success", Val.atom (Atom.bool false))])

/-- Listener of `removerole` (lines 353-390). The platform call of line 368 is
`bot.addToRole`. -/
def Server.onRemoveRole (srv : Server) (h : Hub) (data : RemoveRoleData) : Hub :=
  let h1 := h.push (Effect.query userIDQueryText [Atom.str data.uuid, Atom.str srv.serverID])
  -- `res.length >= 1`, `userID = res[0].userID`
  match h1.store.selectUsersByUuid (some data.uuid) srv.serverID with
  | row :: _ =>
    let h2 := h1.push (Effect.addToRole row.userID srv.serverID data.roleID)
    h2.push (Effect.emit srv.socket "removerolecb"
      [("uuid", Val.atom (Atom.str data.uuid)), ("roleID", Val.atom (Atom.str data.roleID)),
        ("success", Val.atom (Atom.bool true))])
  | [] =>
    h1.push (Effect.emit srv.socket "removerolecb"
      [("uuid", Val.atom (Atom.str data.uuid)), ("roleID", Val.atom (Atom.str data.roleID)),
        ("success", Val.atom (Atom.bool false))])

/-! ## Sequences of account-linking steps -/

/-- One verify confirmation, through either entry point. -/
inductive Confirmation where
  /-- Peer event `verify` on the session `srv`. -/
  | event (srv : Server) (data : VerifyData)
  /-- Peer event `request` on the session `srv`, its `type` being `verify`. -/
  | request (srv : Server) (data : RequestData)

/-- Session that receives the confirmation. -/
def Confirmation.srv : Confirmation → Server
  | Confirmation.event srv _ => srv
  | Confirmation.request srv _ => srv

/-- Field `uuid` of the confirmation. -/
def Confirmation.uuid : Confirmation → Option String
  | Confirmation.event _ data => some data.uuid
  | Confirmation.request _ data => data.uuid

/-- Field `code` of the confirmation. -/
def Confirmation.code : Confirmation → Option String
  | Confirmation.event _ data => some data.code
  | Confirmation.request _ data => data.code

/-- Handle one confirmation. -/
def confirm (env : Platform) (h : Hub) : Confirmation → Option Hub
  | Confirmation.event srv data => some (srv.onVerify h data)
  | Confirmation.request srv data => srv.onRequest env h { data with type := Atom.str "verify" }

/-- One step of the account-linking workflow. -/
inductive LinkStep where
  /-- A platform message, among them the `!verify` commands. -/
  | message (m : BotMessage)
  /-- Peer event `vcb` on the session `srv`. -/
  | vcb (srv : Server) (data : VcbData)
  /-- A verify confirmation. -/
  | confirm (c : Confirmation)

/-- Handle one step. -/
def linkStep (env : Platform) (h : Hub) : LinkStep → Option Hub
  | LinkStep.message m => some (onMessage env h m)
  | LinkStep.vcb srv data => some (srv.onVcb h data)
  | LinkStep.confirm c => confirm env h c

/-- Handle the steps in order, each as one atomic step. A step that ends in a rethrown
store error ends the process: the statement that failed has changed nothing, so the run
stops with the state reached before it. -/
def runSteps (env : Platform) : Hub → List LinkStep → Hub
  | h, [] => h
  | h, s :: ss =>
    match linkStep env h s with
    | some h1 => runSteps env h1 ss
    | none => h

/-- Handle the confirmations in order. -/
def runConfirmations (env : Platform) (h : Hub) (cs : List Confirmation) : Hub :=
  runSteps env h (cs.map LinkStep.confirm)

/-! ## Properties of states and traces -/

/-- No two rows of `users` share `(serverID, uuid)`. -/
def UniquePerUuid (st : Store) : Prop :=
  st.users.Pairwise fun a b => ¬ (a.serverID = b.serverID ∧ a.uuid = b.uuid)

/-- No two rows of `users` share `(serverID, userID)`. -/
def UniquePerUser (st : Store) : Prop :=
  st.users.Pairwise fun a b => ¬ (a.serverID = b.serverID ∧ a.userID = b.userID)

instance (st : Store) : Decidable (UniquePerUuid st) :=
  inferInstanceAs (Decidable (st.users.Pairwise _))

instance (st : Store) : Decidable (UniquePerUser st) :=
  inferInstanceAs (Decidable (st.users.Pairwise _))

/-- Confirmation `c` is a successful confirmation for a platform user who is already
linked: it runs to its end, it selects a single pending verification and finds no row of
`users` for `(uuid, serverID)`, so that it inserts a row, and the platform user of the
pending verification already has a row of `users` on that peer. -/
def relinks (env : Platform) (h : Hub) (c : Confirmation) : Bool :=
  (confirm env h c).isSome &&
    match h.store.selectVerification c.uuid c.code c.srv.serverID with
    | [row] =>
      (h.store.selectUsersByUuid c.uuid c.srv.serverID).isEmpty &&
        h.store.users.any fun r => r.serverID == c.srv.serverID && r.userID == row.userID
    | _ => false

/-- The step is a confirmation that `relinks`. -/
def stepRelinks (env : Platform) (h : Hub) : LinkStep → Bool
  | LinkStep.confirm c => relinks env h c
  | _ => false

/-- Some step of the run is a confirmation that `relinks`, in the state the run has
reached when it handles that step. -/
def runRelinks (env : Platform) : Hub → List LinkStep → Bool
  | _, [] => false
  | h, s :: ss =>
    stepRelinks env h s ||
      match linkStep env h s with
      | some h1 => runRelinks env h1 ss
      | none => false

/-- The `callback` events of a trace that were emitted on socket `s`. -/
def callbacksOn (s : SocketId) (t : List Effect) : List Payload :=
  t.filterMap fun e =>
    match e with
    | Effect.emit s1 ev data => if s1 = s ∧ ev = "callback" then some data else none
    | _ => none

/-- An effect that is a store operation. -/
def Effect.isQuery : Effect → Bool
  | Effect.query _ _ => true
  | _ => false

/-- An effect that is a call to the chat platform or to a webhook. -/
def Effect.isPlatformCall : Effect → Bool
  | Effect.sendMessage _ _ _ => true
  | Effect.addToRole _ _ _ => true
  | Effect.editNickname _ _ _ => true
  | Effect.createDMChannel _ => true
  | Effect.addReaction _ _ _ => true
  | Effect.deleteMessage _ _ => true
  | Effect.webhookSend _ _ _ _ _ => true
  | _ => false

/-! ## Concrete states used as test inputs -/

/-- A platform that answers every call with fixed ids and never fails. -/
def env0 : Platform :=
  { botId := "bot"
    dmChannel := fun _ => "dm1"
    sentMessage := fun _ => "m1"
    reactionError := fun _ _ _ => none }

/-- A session of peer `g1` on connection 7 with one chat channel that relays without
verification. -/
def srv0 : Server :=
  { serverID := "g1"
    channels := [("c1", Channel.mk "w1" "wt1" true true false false)]
    defaultRole := "role1"
    enforceNickname := true
    socket := 7 }

/-- A store with the peer `g1` registered and nothing else. -/
def store0 : Store :=
  { servers := [ServerRow.mk "g1" "tok1"], users := [], verification := [], foldCase := true }

/-- A hub with `srv0` registered and its connection open. -/
def hub0 : Hub :=
  { store := store0
    servers := fun k => if k = "g1" then some srv0 else none
    closed := []
    trace := [] }

/-- An `options` message of peer `g1` with the right token. -/
def optionsGood : OptionsData :=
  { serverID := "g1", enforceNickname := false, token := some "tok1", defaultRole := "role2",
    channels := [ChannelDecl.mk "c2" "w2" "wt2" true false true false] }

/-- An `options` message of peer `g1` without a token. -/
def optionsNoToken : OptionsData :=
  { optionsGood with token := none }

/-- A plain chat message of platform user `u9` in channel `c1` of guild `g1`. -/
def chatMessage0 : BotMessage :=
  { user := "Ann", userID := "u9", channelID := "c1", message := "hello", guildID := "g1",
    messageID := "m9", authorUsername := "Ann", authorDiscriminator := "0001", code := "00" }

/-- A `request` of type `dm` with id `x` that names neither a `userID` nor a `username`. -/
def requestDmNoTarget : RequestData :=
  { type := Atom.str "dm", id := Atom.str "x", username := none, userID := none,
    message := some "hi", embed := none, uuid := none, code := none, channelID := none,
    messageID := none, reaction := none }

/-- A `request` of the unknown type `bogus` with id `x`. -/
def requestBogus : RequestData :=
  { requestDmNoTarget with type := Atom.str "bogus" }

/-- A `request` of type `verify` for uuid `A` with code `ca`. -/
def requestVerifyA : RequestData :=
  { requestDmNoTarget with
    type := Atom.str "verify", username := some "alice", uuid := some "A", code := some "ca" }

/-- Pending verification of platform user `u1` for uuid `A` on peer `g1`. -/
def pendingA : VerificationRow :=
  { user := "Ann", userID := "u1", serverID := "g1", channelID := "c1", uuid := "A", code := "ca" }

/-- Pending verification of platform user `u2` for uuid `B` on peer `g1`. -/
def pendingB : VerificationRow :=
  { user := "Bob", userID := "u2", serverID := "g1", channelID := "c1", uuid := "B", code := "cb" }

/-- The hub `hub0` with the two pending verifications `pendingA` and `pendingB`. -/
def hubPending : Hub :=
  { hub0 with store := { store0 with verification := [pendingA, pendingB] } }

/-- The peer event `verify` for uuid `A` with code `ca`. -/
def verifyA : VerifyData :=
  { uuid := "A", username := "alice", code := "ca" }

/-- The two confirmations of `(g1, A)`: one through each entry point. -/
def confirmTwiceA : List Confirmation :=
  [Confirmation.event srv0 verifyA, Confirmation.request srv0 requestVerifyA]

/-- The account that links platform user `u1` to the player `alice` (uuid `A`) on `g1`. -/
def accountA : UserRow :=
  { user := "Ann", userID := "u1", roleID := "role1", serverID := "g1", username := "alice",
    uuid := "A" }

/-- The hub `hub0` in which platform user `u1` is already linked by `accountA`. -/
def hubLinked : Hub :=
  { hub0 with store := { store0 with users := [accountA] } }

/-- Platform user `u1` writes `!verify bob` in channel `c1` of guild `g1`. -/
def verifyBobCommand : BotMessage :=
  { user := "Ann", userID := "u1", channelID := "c1", message := "!verify bob", guildID := "g1",
    messageID := "m2", authorUsername := "Ann", authorDiscriminator := "0001", code := "cb" }

/-- The peer found the player `bob` (uuid `B`) and answers the request of `u1`. -/
def vcbBob : VcbData :=
  { user := "Ann", userID := "u1", channelID := "c1", uuid := "B", code := "cb", error := false }

/-- The player `bob` confirms with the code that was issued. -/
def verifyB : VerifyData :=
  { uuid := "B", username := "bob", code := "cb" }

/-- The whole linking workflow of platform user `u1` for the player `bob`. -/
def linkBobSteps : List LinkStep :=
  [LinkStep.message verifyBobCommand, LinkStep.vcb srv0 vcbBob,
    LinkStep.confirm (Confirmation.event srv0 verifyB)]

/-- The events emitted on socket `s` in a trace, each with its name and payload. -/
def emitsOn (s : SocketId) (t : List Effect) : List (String × Payload) :=
  t.filterMap fun e =>
    match e with
    | Effect.emit s1 ev data => if s1 = s then some (ev, data) else none
    | _ => none

/-- The hub `hub0` in which uuid `A` is linked on `g1` by `accountA` while the pending
verification `pendingA` for the same uuid is still there. -/
def hubDuplicate : Hub :=
  { hub0 with store := { store0 with users := [accountA], verification := [pendingA] } }

/-- The peer answers the `!verify` request of `u1` for the player `alice` (uuid `A`). -/
def vcbAlice : VcbData :=
  { user := "Ann", userID := "u1", channelID := "c1", uuid := "A", code := "ca", error := false }

/-- The peer did not find the player that `u1` named. -/
def vcbNotFound : VcbData :=
  { vcbAlice with error := true }

/-- A chat message written by the bot account itself in channel `c1` of guild `g1`. -/
def chatMessageOfBot : BotMessage :=
  { chatMessage0 with user := "Bridge", userID := "bot" }

/-- A session of peer `g1` whose chat channel requires verification. -/
def srvStrict : Server :=
  { srv0 with channels := [("c1", Channel.mk "w1" "wt1" true true true false)] }

/-- The second account of platform user `u1` on `g1` (player `bob`, uuid `B`), as the run
`linkBobSteps` leaves it. -/
def accountBob : UserRow :=
  { user := "Ann", userID := "u1", roleID := "role1", serverID := "g1", username := "bob",
    uuid := "B" }

/-- A hub with `srvStrict` registered, in which platform user `u1` has two accounts. -/
def hubTwoAccounts : Hub :=
  { store := { store0 with users := [accountA, accountBob] }
    servers := fun k => if k = "g1" then some srvStrict else none
    closed := []
    trace := [] }

/-- A plain chat message of platform user `u1` in channel `c1` of guild `g1`. -/
def chatMessageOfU1 : BotMessage :=
  { chatMessage0 with userID := "u1" }

/-- The account of platform user `u5` for the player `steve2` on `g1`. -/
def accountSteve2 : UserRow :=
  { user := "Sam", userID := "u5", roleID := "role1", serverID := "g1", username := "steve2",
    uuid := "S2" }

/-- The hub `hub0` in which `steve2` is the only linked player. -/
def hubSteve2 : Hub :=
  { hub0 with store := { store0 with users := [accountSteve2] } }

/-- Platform user `u1` writes `!verify steve` in channel `c1` of guild `g1`. -/
def verifySteveCommand : BotMessage :=
  { verifyBobCommand with message := "!verify steve" }

/-- The hub `hub0` in which the player `a_b` of platform user `u5` is the only linked
player. -/
def hubUnderscore : Hub :=
  { hub0 with store := { store0 with users := [{ accountSteve2 with username := "a_b" }] } }

/-- Platform user `u1` writes `!verify a_b` in channel `c1` of guild `g1`. -/
def verifyUnderscoreCommand : BotMessage :=
  { verifyBobCommand with message := "!verify a_b" }

/-- The text `name` is a prefix of `text` under the collation. -/
def startsWithSql (fold : Bool) : List Char → List Char → Bool
  | [], _ => true
  | _ :: _, [] => false
  | p :: ps, c :: cs => sqlCharEq fold c p && startsWithSql fold ps cs

/-- The webhook sends of one relayed chat message: one for every entry of the session's
channels whose `chat` flag is set. -/
def webhookSends (srv : Server) (username uuid message : String) : List Effect :=
  (srv.channels.filter fun entry => entry.2.chat).map fun entry =>
    Effect.webhookSend entry.2.webhookID entry.2.webhookToken message username (avatarURL uuid)

/-- The expression `@name` (flags `ig`) matches somewhere in the text. -/
def regexOccurs (pattern : List Char) : List Char → Bool
  | [] => regexMatchAt pattern []
  | c :: cs => regexMatchAt pattern (c :: cs) || regexOccurs pattern cs

/-- The names of a tag list written one after the other, a comma after each. -/
def joinNames : List (List Char) → List Char
  | [] => []
  | n :: ns => n ++ ',' :: joinNames ns

/-- SQL text of the batch lookup of line 160. -/
def findInSetQueryText : String :=
  "SELECT `username`, `userID` FROM `users` WHERE FIND_IN_SET(LOWER(`username`), ?) > 0;"

/-- A chat text whose only character after the `@` is the KELVIN SIGN (U+212A). -/
def kelvinChat : ChatData :=
  { message := String.mk ['@', Char.ofNat 0x212A], username := "Steve", uuid := "S" }

/-- The player `Steve` says `hi @alice and @ALICE`. -/
def chatAlice : ChatData :=
  { message := "hi @alice and @ALICE", username := "Steve", uuid := "S" }

/-- The account of platform user `u7` for the player `alice` on the other peer `g2`. -/
def accountAliceElsewhere : UserRow :=
  { user := "Zed", userID := "u7", roleID := "role9", serverID := "g2", username := "alice",
    uuid := "Z" }

/-- The hub `hub0` in which the only linked account belongs to the other peer `g2`. -/
def hubOtherPeer : Hub :=
  { hub0 with store := { store0 with users := [accountAliceElsewhere] } }

/-- The hub `hub0` in which the player `alice` is linked to platform user `u` on `g1`. -/
def hubAlice : Hub :=
  { hub0 with store := { store0 with users := [UserRow.mk "Ann" "u" "role1" "g1" "alice" "A"] } }

/-- A session of peer `g1` with a chat channel, a channel without chat, and a second chat
channel. -/
def srvThree : Server :=
  { srv0 with channels :=
      [("c1", Channel.mk "w1" "wt1" true true false false),
        ("c2", Channel.mk "w2" "wt2" false true false false),
        ("c3", Channel.mk "w3" "wt3" true false true false)] }

/-- A store in which the players `al` (platform user `1`) and `alice` (platform user `2`)
are linked on `g1`, `al` first. -/
def hubAlAlice : Hub :=
  { hub0 with store := { store0 with users :=
      [UserRow.mk "Al" "1" "role1" "g1" "al" "A1", UserRow.mk "Ali" "2" "role1" "g1" "alice" "A2"] } }

/-- A store in which `al` (platform user `1`) is the only linked player. -/
def hubAl : Hub :=
  { hub0 with store := { store0 with users := [UserRow.mk "Al" "1" "role1" "g1" "al" "A1"] } }

/-- The player `Steve` says `@al @alice`. -/
def chatAlAlice : ChatData :=
  { message := "@al @alice", username := "Steve", uuid := "S" }

/-- The peer asks to take role `r5` away from the player with uuid `A`. -/
def removeRoleA : RemoveRoleData :=
  { uuid := "A", roleID := "r5" }

/-! ## Lemmas on the store -/

theorem sqlEq_self (fold : Bool) (a : String) : sqlEq fold a a = true := by
  cases fold <;> simp [sqlEq]

theorem selectUsersByUuid_nil_iff (st : Store) (uuid : String) (serverID : String) :
    st.selectUsersByUuid (some uuid) serverID = []
      ↔ ∀ r ∈ st.users, ¬ (sqlEq st.foldCase r.uuid uuid = true
          ∧ sqlEq st.foldCase r.serverID serverID = true) := by
  simp [Store.selectUsersByUuid, sqlEqParam, List.filter_eq_nil_iff]

/-- A row whose `(serverID, uuid)` the duplicate check of the confirmation found free can
be appended without breaking uniqueness per `(serverID, uuid)`. -/
theorem uniquePerUuid_insert (st : Store) (row : UserRow)
    (hU : UniquePerUuid st)
    (hfree : st.selectUsersByUuid (some row.uuid) row.serverID = []) :
    UniquePerUuid (st.insertUser row) := by
  unfold UniquePerUuid Store.insertUser
  simp only [List.pairwise_append, List.pairwise_cons, List.Pairwise.nil, List.mem_singleton,
    List.not_mem_nil, false_implies, implies_true, and_true, true_and]
  refine ⟨hU, ?_⟩
  intro a ha b hb
  rw [hb]
  rintro ⟨h1, h2⟩
  have := (selectUsersByUuid_nil_iff st row.uuid row.serverID).1 hfree a ha
  apply this
  rw [h1, h2]
  exact ⟨sqlEq_self _ _, sqlEq_self _ _⟩

/-- What the peer event `verify` does to table `users`: nothing, or the one insert that
follows a single matching pending row and an empty duplicate check. -/
theorem onVerify_users (srv : Server) (h : Hub) (data : VerifyData) :
    (srv.onVerify h data).store.users = h.store.users
      ∨ ∃ row, h.store.selectVerification (some data.uuid) (some data.code) srv.serverID = [row]
        ∧ h.store.selectUsersByUuid (some data.uuid) srv.serverID = []
        ∧ (srv.onVerify h data).store.users = h.store.users ++
            [UserRow.mk row.user row.userID srv.defaultRole srv.serverID data.username
              data.uuid] := by
  cases hsel : h.store.selectVerification (some data.uuid) (some data.code) srv.serverID with
  | nil => left; simp [Server.onVerify, Hub.push, hsel]
  | cons row rest =>
    cases rest with
    | cons r2 rest2 => left; simp [Server.onVerify, Hub.push, hsel]
    | nil =>
      by_cases hdup : h.store.selectUsersByUuid (some data.uuid) srv.serverID = []
      · right
        refine ⟨row, rfl, hdup, ?_⟩
        cases henf : srv.enforceNickname <;>
          simp [Server.onVerify, Hub.push, hsel, hdup, henf, Store.insertUser,
            Store.deleteVerification]
      · left
        simp [Server.onVerify, Hub.push, hsel, hdup]

/-- What a `request` of type `verify` does to table `users`. -/
theorem requestVerify_users (srv : Server) (h h1 : Hub) (data : RequestData)
    (hreq : srv.requestVerify h data = some h1) :
    h1.store.users = h.store.users
      ∨ ∃ row uuid username, data.uuid = some uuid ∧ data.username = some username
        ∧ h.store.selectVerification data.uuid data.code srv.serverID = [row]
        ∧ h.store.selectUsersByUuid data.uuid srv.serverID = []
        ∧ h1.store.users = h.store.users ++
            [UserRow.mk row.user row.userID srv.defaultRole srv.serverID username uuid] := by
  obtain ⟨type, id, username, userID, message, embed, uuid, code, channelID, messageID,
    reaction⟩ := data
  simp only at hreq ⊢
  cases uuid with
  | none =>
    left
    have hsel : h.store.selectVerification none code srv.serverID = [] := by
      simp [Store.selectVerification, sqlEqParam]
    simp [Server.requestVerify, Hub.push, hsel] at hreq
    subst hreq; rfl
  | some uuid =>
    cases hsel : h.store.selectVerification (some uuid) code srv.serverID with
    | nil =>
      left
      simp [Server.requestVerify, Hub.push, hsel] at hreq
      subst hreq; rfl
    | cons row rest =>
      cases rest with
      | cons r2 rest2 =>
        left
        simp [Server.requestVerify, Hub.push, hsel] at hreq
        subst hreq; rfl
      | nil =>
        by_cases hdup : h.store.selectUsersByUuid (some uuid) srv.serverID = []
        · cases username with
          | none => simp [Server.requestVerify, Hub.push, hsel, hdup] at hreq
          | some username =>
            right
            refine ⟨row, uuid, username, rfl, rfl, rfl, hdup, ?_⟩
            cases henf : srv.enforceNickname <;>
              simp [Server.requestVerify, Hub.push, hsel, hdup, henf,
                Store.insertUser, Store.deleteVerification] at hreq <;>
              (subst hreq; rfl)
        · left
          simp [Server.requestVerify, Hub.push, hsel, hdup] at hreq
          subst hreq; rfl

/-- What one confirmation does to table `users`, whichever the entry point. -/
theorem confirm_users (env : Platform) (h h1 : Hub) (c : Confirmation)
    (hc : confirm env h c = some h1) :
    h1.store.users = h.store.users
      ∨ ∃ row uuid username, c.uuid = some uuid
        ∧ h.store.selectVerification c.uuid c.code c.srv.serverID = [row]
        ∧ h.store.selectUsersByUuid c.uuid c.srv.serverID = []
        ∧ h1.store.users = h.store.users ++
            [UserRow.mk row.user row.userID c.srv.defaultRole c.srv.serverID username uuid] := by
  cases c with
  | event srv data =>
    simp only [confirm, Option.some.injEq] at hc
    subst hc
    rcases onVerify_users srv h data with hsame | ⟨row, hsel, hdup, hins⟩
    · exact Or.inl hsame
    · exact Or.inr ⟨row, data.uuid, data.username, rfl, hsel, hdup, hins⟩
  | request srv data =>
    have hreq : srv.requestVerify h { data with type := Atom.str "verify" } = some h1 := by
      simpa [confirm, Server.onRequest] using hc
    rcases requestVerify_users srv h h1 _ hreq with hsame | ⟨row, uuid, username, hu, _, hsel, hdup, hins⟩
    · exact Or.inl hsame
    · exact Or.inr ⟨row, uuid, username, hu, hsel, hdup, hins⟩

/-- The listener of `vcb` does not touch table `users`. -/
theorem onVcb_users (srv : Server) (h : Hub) (data : VcbData) :
    (srv.onVcb h data).store.users = h.store.users := by
  cases herr : data.error <;> simp [Server.onVcb, Hub.push, herr, Store.insertVerification]

/-- A platform message leaves table `users` as it is or (`!unlink`) removes rows from it. -/
theorem onMessage_users (env : Platform) (h : Hub) (m : BotMessage) :
    (onMessage env h m).store.users = h.store.users
      ∨ ∃ p, (onMessage env h m).store.users = h.store.users.filter p := by
  unfold onMessage
  split
  · exact Or.inl rfl
  · split
    · exact Or.inl rfl
    · split
      · split
        · dsimp only
          split
          · left
            unfold onVerifyCommand
            split
            · dsimp only [Hub.push]; split <;> rfl
            · rfl
          · split
            · right
              refine ⟨fun r => !(sqlEq h.store.foldCase r.userID m.userID
                && sqlEq h.store.foldCase r.serverID m.guildID), ?_⟩
              unfold onUnlinkCommand
              dsimp only [Hub.push]
              split <;> rfl
            · left
              unfold onOtherCommand
              rfl
        · left
          unfold onChatMessage
          split
          · split
            · dsimp only [Hub.push]; split <;> rfl
            · rfl
          · rfl
      · exact Or.inl rfl

/-- One confirmation keeps uniqueness per `(serverID, uuid)`. -/
theorem confirm_keeps_uniquePerUuid (env : Platform) (h h1 : Hub) (c : Confirmation)
    (hc : confirm env h c = some h1) (hU : UniquePerUuid h.store) :
    UniquePerUuid h1.store := by
  rcases confirm_users env h h1 c hc with hsame | ⟨row, uuid, username, hu, _, hdup, hins⟩
  · unfold UniquePerUuid at hU ⊢
    rw [hsame]; exact hU
  · rw [hu] at hdup
    have := uniquePerUuid_insert h.store
      (UserRow.mk row.user row.userID c.srv.defaultRole c.srv.serverID username uuid) hU hdup
    unfold UniquePerUuid at this ⊢
    rw [hins]; exact this

/-- Unfolding of a run of confirmations at its first step. -/
theorem runConfirmations_cons (env : Platform) (h : Hub) (c : Confirmation)
    (cs : List Confirmation) :
    runConfirmations env h (c :: cs) =
      match confirm env h c with
      | some h1 => runConfirmations env h1 cs
      | none => h := by
  simp only [runConfirmations, List.map_cons, runSteps, linkStep]

/-- Any run of confirmations keeps uniqueness per `(serverID, uuid)`. -/
theorem runConfirmations_keeps_uniquePerUuid (env : Platform) (cs : List Confirmation) :
    ∀ h : Hub, UniquePerUuid h.store → UniquePerUuid (runConfirmations env h cs).store := by
  induction cs with
  | nil => intro h hU; simpa [runConfirmations, runSteps] using hU
  | cons c cs ih =>
    intro h hU
    rw [runConfirmations_cons]
    cases hc : confirm env h c with
    | none => exact hU
    | some h1 => exact ih h1 (confirm_keeps_uniquePerUuid env h h1 c hc hU)

/-- After a confirmation that inserted a row, a second confirmation for the same peer and
uuid inserts nothing. -/
theorem confirm_twice_same_key (env : Platform) (h h1 h2 : Hub) (c1 c2 : Confirmation)
    (hsrv : c2.srv.serverID = c1.srv.serverID) (huuid : c2.uuid = c1.uuid)
    (hc1 : confirm env h c1 = some h1) (hins : h1.store.users ≠ h.store.users)
    (hc2 : confirm env h1 c2 = some h2) :
    h2.store.users = h1.store.users := by
  rcases confirm_users env h h1 c1 hc1 with hsame | ⟨row, uuid, username, hu, _, _, hins1⟩
  · exact absurd hsame hins
  · rcases confirm_users env h1 h2 c2 hc2 with hsame2 | ⟨row2, uuid2, username2, hu2, _, hdup2, _⟩
    · exact hsame2
    · exfalso
      rw [huuid, hu, hsrv] at hdup2
      have hmem : UserRow.mk row.user row.userID c1.srv.defaultRole c1.srv.serverID username uuid
          ∈ h1.store.users := by rw [hins1]; simp
      exact (selectUsersByUuid_nil_iff h1.store uuid c1.srv.serverID).1 hdup2 _ hmem
        ⟨sqlEq_self _ _, sqlEq_self _ _⟩

/-- One confirmation makes table `users` longer by at most one row. -/
theorem confirm_users_length (env : Platform) (h h1 : Hub) (c : Confirmation)
    (hc : confirm env h c = some h1) :
    h1.store.users.length = h.store.users.length
      ∨ (h1.store.users ≠ h.store.users
        ∧ h1.store.users.length = h.store.users.length + 1) := by
  rcases confirm_users env h h1 c hc with hsame | ⟨row, uuid, username, _, _, _, hins⟩
  · left; rw [hsame]
  · right
    constructor
    · intro heq
      have := congrArg List.length heq
      rw [hins] at this
      simp at this
    · rw [hins]; simp

/-- A row for a platform user without a row on that peer can be appended without breaking
uniqueness per `(serverID, userID)`. -/
theorem uniquePerUser_insert (st : Store) (row : UserRow) (hU : UniquePerUser st)
    (hfree : ∀ r ∈ st.users, ¬ (r.serverID = row.serverID ∧ r.userID = row.userID)) :
    UniquePerUser (st.insertUser row) := by
  unfold UniquePerUser Store.insertUser
  simp only [List.pairwise_append, List.pairwise_cons, List.Pairwise.nil, List.mem_singleton,
    List.not_mem_nil, false_implies, implies_true, and_true, true_and]
  refine ⟨hU, ?_⟩
  intro a ha b hb
  rw [hb]
  exact hfree a ha

/-- A confirmation that selects a single pending verification and finds no row of `users`
for `(uuid, serverID)` appends a row for the platform user of the pending verification,
if it runs to its end. -/
theorem confirm_inserts (env : Platform) (h h1 : Hub) (c : Confirmation) (row : VerificationRow)
    (hc : confirm env h c = some h1)
    (hsel : h.store.selectVerification c.uuid c.code c.srv.serverID = [row])
    (hdup : h.store.selectUsersByUuid c.uuid c.srv.serverID = []) :
    ∃ uuid username, h1.store.users = h.store.users ++
      [UserRow.mk row.user row.userID c.srv.defaultRole c.srv.serverID username uuid] := by
  cases c with
  | event srv data =>
    simp only [confirm, Option.some.injEq] at hc
    subst hc
    simp only [Confirmation.uuid, Confirmation.code, Confirmation.srv] at hsel hdup ⊢
    refine ⟨data.uuid, data.username, ?_⟩
    cases henf : srv.enforceNickname <;>
      simp [Server.onVerify, Hub.push, hsel, hdup, henf, Store.insertUser,
        Store.deleteVerification]
  | request srv data =>
    have hreq : srv.requestVerify h { data with type := Atom.str "verify" } = some h1 := by
      simpa [confirm, Server.onRequest] using hc
    obtain ⟨type, id, username, userID, message, embed, uuid, code, channelID, messageID,
      reaction⟩ := data
    simp only [Confirmation.uuid, Confirmation.code, Confirmation.srv] at hsel hdup hreq ⊢
    cases uuid with
    | none => simp [Store.selectVerification, sqlEqParam] at hsel
    | some uuid =>
      cases username with
      | none => simp [Server.requestVerify, Hub.push, hsel, hdup] at hreq
      | some username =>
        refine ⟨uuid, username, ?_⟩
        cases henf : srv.enforceNickname <;>
          simp [Server.requestVerify, Hub.push, hsel, hdup, henf,
            Store.insertUser, Store.deleteVerification] at hreq <;>
          (subst hreq; rfl)

/-- One step, taken in a store with at most one row of `users` per `(serverID, userID)`,
leaves at most one exactly when it is not a confirmation that `relinks`. -/
theorem linkStep_uniquePerUser_iff (env : Platform) (h h1 : Hub) (s : LinkStep)
    (hs : linkStep env h s = some h1) (hU : UniquePerUser h.store) :
    UniquePerUser h1.store ↔ stepRelinks env h s = false := by
  cases s with
  | message m =>
    simp only [linkStep, Option.some.injEq] at hs
    subst hs
    simp only [stepRelinks, iff_true]
    unfold UniquePerUser at hU ⊢
    rcases onMessage_users env h m with hsame | ⟨p, hfilter⟩
    · rw [hsame]; exact hU
    · rw [hfilter]; exact hU.sublist (List.filter_sublist _)
  | vcb srv data =>
    simp only [linkStep, Option.some.injEq] at hs
    subst hs
    simp only [stepRelinks, iff_true]
    unfold UniquePerUser at hU ⊢
    rw [onVcb_users]; exact hU
  | confirm c =>
    simp only [linkStep] at hs
    simp only [stepRelinks, relinks, hs, Option.isSome_some, Bool.true_and]
    constructor
    · intro hU1
      rcases hsel : h.store.selectVerification c.uuid c.code c.srv.serverID with
        _ | ⟨row, _ | ⟨r2, rest⟩⟩
      · rfl
      · by_cases hdup : h.store.selectUsersByUuid c.uuid c.srv.serverID = []
        · obtain ⟨uuid, username, hins⟩ := confirm_inserts env h h1 c row hs hsel hdup
          simp only [hdup, List.isEmpty_nil, Bool.true_and]
          rw [Bool.eq_false_iff]
          intro hany
          rw [List.any_eq_true] at hany
          obtain ⟨r, hr, hrr⟩ := hany
          simp only [Bool.and_eq_true, beq_iff_eq] at hrr
          unfold UniquePerUser at hU1
          rw [hins, List.pairwise_append] at hU1
          exact hU1.2.2 r hr _ (List.mem_singleton_self _) ⟨hrr.1, hrr.2⟩
        · cases hd : h.store.selectUsersByUuid c.uuid c.srv.serverID with
          | nil => exact absurd hd hdup
          | cons d ds => rfl
      · rfl
    · intro hrel
      rcases confirm_users env h h1 c hs with hsame | ⟨row, uuid, username, _, hsel, hdup, hins⟩
      · unfold UniquePerUser at hU ⊢
        rw [hsame]; exact hU
      · have hfree : ∀ r ∈ h.store.users,
            ¬ (r.serverID = c.srv.serverID ∧ r.userID = row.userID) := by
          simp only [hsel, hdup, List.isEmpty_nil, Bool.true_and] at hrel
          intro r hr ⟨h1', h2'⟩
          have hany : (h.store.users.any fun r =>
              r.serverID == c.srv.serverID && r.userID == row.userID) = true :=
            List.any_eq_true.2 ⟨r, hr, by simp [h1', h2']⟩
          rw [hrel] at hany
          exact Bool.false_ne_true hany
        have := uniquePerUser_insert h.store
          (UserRow.mk row.user row.userID c.srv.defaultRole c.srv.serverID username uuid) hU hfree
        unfold UniquePerUser at this ⊢
        rw [hins]; exact this

/-- A run without a confirmation that `relinks` keeps uniqueness per `(serverID, userID)`. -/
theorem runSteps_keeps_uniquePerUser (env : Platform) (steps : List LinkStep) :
    ∀ h : Hub, UniquePerUser h.store → runRelinks env h steps = false →
      UniquePerUser (runSteps env h steps).store := by
  induction steps with
  | nil => intro h hU _; simpa [runSteps] using hU
  | cons s ss ih =>
    intro h hU hg
    simp only [runRelinks, Bool.or_eq_false_iff] at hg
    simp only [runSteps]
    cases hs : linkStep env h s with
    | none => exact hU
    | some h1 =>
      simp only [hs] at hg
      exact ih h1 ((linkStep_uniquePerUser_iff env h h1 s hs hU).2 hg.1) hg.2

/-! ## Session registry -/

/-- C1: when an `options` message carries a token that matches exactly one row of `servers`,
a session already registered for that peer has its connection disconnected (and no other
connection is), and afterwards the registry maps the peer to the new session bound to the
authenticating connection, every other entry being unchanged. -/
theorem onOptions_valid_token (h : Hub) (socket : SocketId) (data : OptionsData) (token : String)
    (htoken : data.token = some token)
    (hmatch : (h.store.selectServer data.serverID token).length = 1) :
    (onOptions h socket data).servers data.serverID
        = some (Server.mk data.serverID (buildChannels data.channels) data.defaultRole
            data.enforceNickname socket)
      ∧ (∀ k, k ≠ data.serverID → (onOptions h socket data).servers k = h.servers k)
      ∧ (∀ old, h.servers data.serverID = some old →
          (onOptions h socket data).closed = old.socket :: h.closed
            ∧ (onOptions h socket data).trace = h.trace ++
                [Effect.query "SELECT * FROM `servers` WHERE `serverID` = ? AND `token` = ?;"
                    [Atom.str data.serverID, Atom.str token],
                  Effect.disconnect old.socket])
      ∧ (h.servers data.serverID = none → (onOptions h socket data).closed = h.closed)
      ∧ (onOptions h socket data).store = h.store := by
  unfold onOptions
  simp only [htoken, hmatch, if_true, Hub.push]
  refine ⟨?_, ?_, ?_, ?_, ?_⟩
  · simp
  · intro k hk
    cases hs : h.servers data.serverID <;> simp [hk, Hub.socketDisconnect]
  · intro old hold
    simp [hold, Hub.socketDisconnect]
  · intro hnone
    simp [hnone]
  · cases hs : h.servers data.serverID <;> simp [Hub.socketDisconnect]

theorem onOptions_valid_token_witness :
    (onOptions hub0 8 optionsGood).servers "g1"
        = some (Server.mk "g1" (buildChannels optionsGood.channels) "role2" false 8)
      ∧ (onOptions hub0 8 optionsGood).closed = [7] :=
  have key := onOptions_valid_token hub0 8 optionsGood "tok1" rfl (by decide)
  ⟨key.1, (key.2.2.1 srv0 (by decide)).1⟩

/-- C2, as stated, fails: the session of peer `g1` lives on connection 7; an `options`
message without a token arrives on that same connection, and the session's connection,
open before, is closed afterwards. -/
theorem onOptions_bad_token_closes_own_session :
    optionsNoToken.token = none
      ∧ hub0.servers optionsNoToken.serverID = some srv0
      ∧ srv0.socket ∉ hub0.closed
      ∧ srv0.socket ∈ (onOptions hub0 7 optionsNoToken).closed
      ∧ (onOptions hub0 7 optionsNoToken).servers optionsNoToken.serverID = some srv0 := by
  decide

/-- C2 (amended): an `options` message whose token is absent, or whose `(serverID, token)`
selects no row of `servers`, closes the authenticating connection and no other one, runs at
most the one lookup, and leaves registry and store as they were. An existing session of that
peer is therefore kept, and its connection is closed only if it is the authenticating one. -/
theorem onOptions_bad_token (h : Hub) (socket : SocketId) (data : OptionsData)
    (hbad : ∀ token, data.token = some token → h.store.selectServer data.serverID token = []) :
    (onOptions h socket data).servers = h.servers
      ∧ (onOptions h socket data).store = h.store
      ∧ (onOptions h socket data).closed = socket :: h.closed
      ∧ (∃ qs, (∀ e ∈ qs, Effect.isQuery e = true)
          ∧ (onOptions h socket data).trace = h.trace ++ qs ++ [Effect.disconnect socket])
      ∧ (∀ old, h.servers data.serverID = some old → old.socket ≠ socket →
          (old.socket ∈ (onOptions h socket data).closed ↔ old.socket ∈ h.closed)) := by
  unfold onOptions
  cases htok : data.token with
  | none =>
    refine ⟨rfl, rfl, rfl, ⟨[], by simp, by simp [Hub.socketDisconnect]⟩, ?_⟩
    intro old _ hne
    simp [Hub.socketDisconnect, hne]
  | some token =>
    have hres := hbad token htok
    simp only [hres, List.length_nil]
    refine ⟨rfl, rfl, rfl, ⟨[Effect.query "SELECT * FROM `servers` WHERE `serverID` = ? AND `token` = ?;"
      [Atom.str data.serverID, Atom.str token]], by simp [Effect.isQuery],
      by simp [Hub.socketDisconnect, Hub.push]⟩, ?_⟩
    intro old _ hne
    simp [Hub.socketDisconnect, Hub.push, hne]

theorem onOptions_bad_token_witness :
    (onOptions hub0 8 optionsNoToken).servers = hub0.servers
      ∧ (onOptions hub0 8 optionsNoToken).closed = [8] :=
  have key := onOptions_bad_token hub0 8 optionsNoToken (by intro token htok; cases htok)
  ⟨key.1, key.2.2.1⟩

/-- C3, as stated, fails: after the peer of the registered session `srv0` has disconnected,
the registry still returns `srv0`, whose connection is closed, and a platform chat message
in its channel is emitted on that closed connection. -/
theorem stale_session_stays_registered :
    (srv0.onDisconnect hub0).servers "g1" = some srv0
      ∧ srv0.socket ∈ (srv0.onDisconnect hub0).closed
      ∧ (onMessage env0 (srv0.onDisconnect hub0) chatMessage0).trace =
          [Effect.emit srv0.socket "message"
            [("sender", Val.obj [("user", Atom.str "Ann"), ("userID", Atom.str "u9"),
                ("username", Atom.null)]),
              ("message", Val.atom (Atom.str "hello")),
              ("channelID", Val.atom (Atom.str "c1"))]] := by
  decide

/-- C3 (amended): the disconnection of a registered session's connection leaves the registry
as it was: the lookup of its peer still returns the session, now with a closed connection.
(Only a later successful `options` of the same peer replaces it, see C1.) -/
theorem onDisconnect_keeps_registry (h : Hub) (srv : Server)
    (hreg : h.servers srv.serverID = some srv) :
    (srv.onDisconnect h).servers = h.servers
      ∧ (srv.onDisconnect h).servers srv.serverID = some srv
      ∧ srv.socket ∈ (srv.onDisconnect h).closed
      ∧ (srv.onDisconnect h).store = h.store
      ∧ (srv.onDisconnect h).trace = h.trace := by
  refine ⟨rfl, hreg, ?_, rfl, rfl⟩
  simp [Server.onDisconnect]

theorem onDisconnect_keeps_registry_witness :
    (srv0.onDisconnect hub0).servers = hub0.servers
      ∧ (srv0.onDisconnect hub0).servers srv0.serverID = some srv0
      ∧ srv0.socket ∈ (srv0.onDisconnect hub0).closed
      ∧ (srv0.onDisconnect hub0).store = hub0.store
      ∧ (srv0.onDisconnect hub0).trace = hub0.trace :=
  onDisconnect_keeps_registry hub0 srv0 (by decide)

/-! ## Request correlator -/

/-- C4 fails on the code: a `request` of type `dm` that carries neither `userID` nor
`username` runs to its end without any store or platform call failing, and nothing at all
is emitted, so no `callback` answers the request `x`. -/
theorem onRequest_dm_without_target_no_callback :
    (srv0.onRequest env0 hub0 requestDmNoTarget).map (fun h => h.trace) = some []
      ∧ (srv0.onRequest env0 hub0 requestDmNoTarget).map
          (fun h => callbacksOn srv0.socket h.trace) = some [] := by
  decide

/-- Every other request is answered once: if the request is not a `dm` without `userID`
and `username`, and no store error ends the step, exactly one `callback` is added to what
was emitted on the session's connection, and its `id` is the id of the request. -/
theorem onRequest_single_callback (env : Platform) (srv : Server) (h h1 : Hub)
    (data : RequestData) (hreq : srv.onRequest env h data = some h1)
    (hshape : ¬ (data.type = Atom.str "dm" ∧ data.userID = none ∧ data.username = none)) :
    (callbacksOn srv.socket h1.trace).map (fun fields => objGet fields "id")
      = (callbacksOn srv.socket h.trace).map (fun fields => objGet fields "id")
          ++ [some (Val.atom data.id)] := by
  obtain ⟨type, id, username, userID, message, embed, uuid, code, channelID, messageID,
    reaction⟩ := data
  simp only at hshape
  unfold Server.onRequest at hreq
  simp only at hreq
  split at hreq
  · simp only [Server.getUser, Hub.push, Option.some.injEq] at hreq
    subst hreq
    simp [callbacksOn, callbackOf, List.filterMap_append, objGet]
  · split at hreq
    · rename_i hdm
      simp only [Option.some.injEq] at hreq
      subst hreq
      cases userID with
      | some u =>
        cases embed <;>
          simp [Server.requestDm, Hub.push, callbacksOn, callbackOf, List.filterMap_append,
            objGet]
      | none =>
        cases username with
        | none => exact absurd ⟨hdm, rfl, rfl⟩ hshape
        | some n =>
          cases hres : h.store.selectUsersByUsername (some n) srv.serverID <;>
            simp [Server.requestDm, Server.getUser, hres, Hub.push, callbacksOn,
              callbackOf, List.filterMap_append, objGet]
    · split at hreq
      · unfold Server.requestVerify at hreq
        simp only [Hub.push] at hreq
        split at hreq
        · split at hreq
          · split at hreq
            · simp only [Option.some.injEq] at hreq
              subst hreq
              cases srv.enforceNickname <;>
                simp [callbacksOn, callbackOf, List.filterMap_append, objGet]
            · cases hreq
          · simp only [Option.some.injEq] at hreq
            subst hreq
            simp [callbacksOn, callbackOf, List.filterMap_append, objGet]
        · simp only [Option.some.injEq] at hreq
          subst hreq
          simp [callbacksOn, callbackOf, List.filterMap_append, objGet]
      · split at hreq
        · simp only [Hub.push, Option.some.injEq] at hreq
          subst hreq
          simp [callbacksOn, callbackOf, List.filterMap_append, objGet]
        · split at hreq
          · simp only [Hub.push] at hreq
            split at hreq <;>
              (simp only [Option.some.injEq] at hreq
               subst hreq
               simp [callbacksOn, callbackOf, List.filterMap_append, objGet])
          · split at hreq <;>
              (simp only [Hub.push, Option.some.injEq] at hreq
               subst hreq
               simp [callbacksOn, callbackOf, List.filterMap_append, objGet])

/-- C5: a `request` whose type is none of `user`, `dm`, `verify`, `embed`, `react`, `delete`
has one effect only, the emission of one `callback` with the request id, `error: true` and
the message `Invalid request type!`; no store operation and no platform call is made and
the state is otherwise unchanged. -/
theorem onRequest_unknown_type (env : Platform) (srv : Server) (h : Hub) (data : RequestData)
    (htype : data.type ∉ [Atom.str "user", Atom.str "dm", Atom.str "verify", Atom.str "embed",
      Atom.str "react", Atom.str "delete"]) :
    ∃ h1, srv.onRequest env h data = some h1
      ∧ h1.store = h.store ∧ h1.servers = h.servers ∧ h1.closed = h.closed
      ∧ h1.trace = h.trace ++
          [Effect.emit srv.socket "callback"
            [("id", Val.atom data.id), ("error", Val.atom (Atom.bool true)),
              ("message", Val.atom (Atom.str "Invalid request type!")),
              ("type", Val.atom data.type)]]
      ∧ callbacksOn srv.socket h1.trace = callbacksOn srv.socket h.trace ++
          [[("id", Val.atom data.id), ("error", Val.atom (Atom.bool true)),
              ("message", Val.atom (Atom.str "Invalid request type!")),
              ("type", Val.atom data.type)]]
      ∧ h1.trace.filter Effect.isQuery = h.trace.filter Effect.isQuery
      ∧ h1.trace.filter Effect.isPlatformCall = h.trace.filter Effect.isPlatformCall := by
  simp only [List.mem_cons, List.mem_singleton, List.not_mem_nil, or_false, not_or] at htype
  obtain ⟨h1, h2, h3, h4, h5, h6⟩ := htype
  have hreq : srv.onRequest env h data = some (h.push (callbackOf srv
      [("id", Val.atom data.id), ("error", Val.atom (Atom.bool true)),
        ("message", Val.atom (Atom.str "Invalid request type!")),
        ("type", Val.atom data.type)])) := by
    simp [Server.onRequest, h1, h2, h3, h4, h5, h6]
  refine ⟨_, hreq, ?_⟩
  simp [Hub.push, callbackOf, callbacksOn, List.filterMap_append, Effect.isQuery,
    Effect.isPlatformCall, List.filter_append]

theorem onRequest_unknown_type_witness :
    ∃ h1, srv0.onRequest env0 hub0 requestBogus = some h1
      ∧ h1.store = hub0.store ∧ h1.servers = hub0.servers ∧ h1.closed = hub0.closed
      ∧ h1.trace = hub0.trace ++
          [Effect.emit srv0.socket "callback"
            [("id", Val.atom requestBogus.id), ("error", Val.atom (Atom.bool true)),
              ("message", Val.atom (Atom.str "Invalid request type!")),
              ("type", Val.atom requestBogus.type)]]
      ∧ callbacksOn srv0.socket h1.trace = callbacksOn srv0.socket hub0.trace ++
          [[("id", Val.atom requestBogus.id), ("error", Val.atom (Atom.bool true)),
              ("message", Val.atom (Atom.str "Invalid request type!")),
              ("type", Val.atom requestBogus.type)]]
      ∧ h1.trace.filter Effect.isQuery = hub0.trace.filter Effect.isQuery
      ∧ h1.trace.filter Effect.isPlatformCall = hub0.trace.filter Effect.isPlatformCall :=
  onRequest_unknown_type env0 srv0 hub0 requestBogus (by decide)

/-- C10: a `request` of type `verify` whose `(uuid, code)` selects no pending verification
of the peer is answered by one `callback` with the request id, `error: true` and the
message `No user to be verified!`; apart from the one SELECT nothing else happens: both
tables, the registry and the connections are unchanged and no platform call is made. -/
theorem onRequest_verify_no_pending (env : Platform) (srv : Server) (h : Hub)
    (data : RequestData) (htype : data.type = Atom.str "verify")
    (hnone : h.store.selectVerification data.uuid data.code srv.serverID = []) :
    ∃ h1, srv.onRequest env h data = some h1
      ∧ h1.store = h.store ∧ h1.servers = h.servers ∧ h1.closed = h.closed
      ∧ h1.trace = h.trace ++
          [Effect.query
              "SELECT * FROM `verification` WHERE `uuid` = ? AND `code` = ? AND `serverID` = ?;"
              [Atom.ofOpt data.uuid, Atom.ofOpt data.code, Atom.str srv.serverID],
            Effect.emit srv.socket "callback"
              [("id", Val.atom data.id), ("error", Val.atom (Atom.bool true)),
                ("message", Val.atom (Atom.str "No user to be verified!"))]]
      ∧ h1.trace.filter Effect.isPlatformCall = h.trace.filter Effect.isPlatformCall := by
  have hreq : srv.onRequest env h data = some ((h.push (Effect.query
      "SELECT * FROM `verification` WHERE `uuid` = ? AND `code` = ? AND `serverID` = ?;"
      [Atom.ofOpt data.uuid, Atom.ofOpt data.code, Atom.str srv.serverID])).push (callbackOf srv
      [("id", Val.atom data.id), ("error", Val.atom (Atom.bool true)),
        ("message", Val.atom (Atom.str "No user to be verified!"))])) := by
    simp [Server.onRequest, htype, Server.requestVerify, Hub.push, hnone]
  refine ⟨_, hreq, ?_⟩
  simp [Hub.push, callbackOf, Effect.isPlatformCall, List.filter_append]

theorem onRequest_verify_no_pending_witness :
    ∃ h1, srv0.onRequest env0 hub0 requestVerifyA = some h1
      ∧ h1.store = hub0.store ∧ h1.servers = hub0.servers ∧ h1.closed = hub0.closed
      ∧ h1.trace = hub0.trace ++
          [Effect.query
              "SELECT * FROM `verification` WHERE `uuid` = ? AND `code` = ? AND `serverID` = ?;"
              [Atom.ofOpt requestVerifyA.uuid, Atom.ofOpt requestVerifyA.code,
                Atom.str srv0.serverID],
            Effect.emit srv0.socket "callback"
              [("id", Val.atom requestVerifyA.id), ("error", Val.atom (Atom.bool true)),
                ("message", Val.atom (Atom.str "No user to be verified!"))]]
      ∧ h1.trace.filter Effect.isPlatformCall = hub0.trace.filter Effect.isPlatformCall :=
  onRequest_verify_no_pending env0 srv0 hub0 requestVerifyA rfl (by decide)

/-! ## Verify confirmation -/

/-- C8: when the `(uuid, code)` of a verify confirmation selects exactly one pending
verification `row` of the peer and the peer has no linked account for `uuid`, either entry
point (peer event `verify`, `request` of type `verify`) appends exactly one row to `users`,
made of `user` and `userID` of `row`, the session's default role, the peer, and the
`username` and `uuid` of the message; and the platform calls it makes are, in this order,
the success message to the channel of `row`, the grant of the default role to the platform
user of `row`, and, exactly when the session enforces nicknames, the rename of that user to
`username`. -/
theorem verify_confirmation_success (env : Platform) (srv : Server) (h : Hub)
    (uuid username code : String) (data : RequestData) (row : VerificationRow)
    (hpending : h.store.selectVerification (some uuid) (some code) srv.serverID = [row])
    (hfresh : h.store.selectUsersByUuid (some uuid) srv.serverID = [])
    (htype : data.type = Atom.str "verify") (huuid : data.uuid = some uuid)
    (hname : data.username = some username) (hcode : data.code = some code) :
    ((srv.onVerify h (VerifyData.mk uuid username code)).store.users
          = h.store.users ++
            [UserRow.mk row.user row.userID srv.defaultRole srv.serverID username uuid]
        ∧ (srv.onVerify h (VerifyData.mk uuid username code)).trace.filter Effect.isPlatformCall
          = h.trace.filter Effect.isPlatformCall ++
            [Effect.sendMessage (some row.channelID) (some (linkedMessage row.userID username)) none,
              Effect.addToRole row.userID srv.serverID srv.defaultRole] ++
            (if srv.enforceNickname then
              [Effect.editNickname row.userID srv.serverID (some username)] else []))
      ∧ ∃ h1, srv.onRequest env h data = some h1
        ∧ h1.store.users
          = h.store.users ++
            [UserRow.mk row.user row.userID srv.defaultRole srv.serverID username uuid]
        ∧ h1.trace.filter Effect.isPlatformCall
          = h.trace.filter Effect.isPlatformCall ++
            [Effect.sendMessage (some row.channelID) (some (linkedMessage row.userID username)) none,
              Effect.addToRole row.userID srv.serverID srv.defaultRole] ++
            (if srv.enforceNickname then
              [Effect.editNickname row.userID srv.serverID (some username)] else [])
        ∧ callbacksOn srv.socket h1.trace = callbacksOn srv.socket h.trace ++
            [[("id", Val.atom data.id), ("error", Val.atom (Atom.bool false)),
              ("message", Val.atom (Atom.str "Success!"))]] := by
  refine ⟨?_, ?_⟩
  · cases henf : srv.enforceNickname <;>
      simp [Server.onVerify, Hub.push, hpending, hfresh, henf, Store.insertUser,
        Store.deleteVerification, Effect.isPlatformCall, List.filter_append]
  · cases henf : srv.enforceNickname <;>
      simp [Server.onRequest, Server.requestVerify, Hub.push, htype, huuid, hname, hcode,
        hpending, hfresh, henf, Store.insertUser, Store.deleteVerification,
        Effect.isPlatformCall, List.filter_append, callbackOf, callbacksOn,
        List.filterMap_append]

theorem verify_confirmation_success_witness :
    (srv0.onVerify hubPending verifyA).store.users
        = [UserRow.mk "Ann" "u1" "role1" "g1" "alice" "A"]
      ∧ (srv0.onVerify hubPending verifyA).trace.filter Effect.isPlatformCall
        = [Effect.sendMessage (some "c1") (some (linkedMessage "u1" "alice")) none,
            Effect.addToRole "u1" "g1" "role1", Effect.editNickname "u1" "g1" (some "alice")] :=
  (verify_confirmation_success env0 srv0 hubPending "A" "alice" "ca" requestVerifyA pendingA
    (by decide) (by decide) rfl rfl rfl rfl).1

/-- C9 fails on the code: with two pending verifications of peer `g1`, for different uuids
and different platform users, the confirmation of the first one, through either entry
point, leaves the table empty: the second pending row is deleted as well. -/
theorem verify_success_deletes_every_pending_row_of_peer :
    hubPending.store.verification = [pendingA, pendingB]
      ∧ hubPending.store.selectVerification (some "A") (some "ca") "g1" = [pendingA]
      ∧ (srv0.onVerify hubPending verifyA).store.verification = []
      ∧ (srv0.onRequest env0 hubPending requestVerifyA).map (fun h => h.store.verification)
          = some [] := by
  decide

/-! ## Uniqueness of linked accounts -/

/-- C6: with every verify confirmation taken as one atomic step, a store that has at most
one row of `users` per `(serverID, uuid)` still has at most one after any finite sequence
of confirmations, through either entry point, on any sessions and with any arguments. In
particular two successive confirmations for the same peer and uuid add at most one row,
and exactly one if the first of them inserts: the second then inserts nothing. -/
theorem confirmations_keep_uniquePerUuid (env : Platform) (h : Hub) (cs : List Confirmation)
    (hU : UniquePerUuid h.store) :
    UniquePerUuid (runConfirmations env h cs).store
      ∧ ∀ c1 c2, cs = [c1, c2] → c2.srv.serverID = c1.srv.serverID → c2.uuid = c1.uuid →
          (runConfirmations env h cs).store.users.length ≤ h.store.users.length + 1
            ∧ ∀ h1, confirm env h c1 = some h1 → h1.store.users ≠ h.store.users →
                h1.store.users.length = h.store.users.length + 1
                  ∧ (runConfirmations env h cs).store.users = h1.store.users := by
  refine ⟨runConfirmations_keeps_uniquePerUuid env cs h hU, ?_⟩
  intro c1 c2 hcs hsrv huuid
  subst hcs
  have hrun : runConfirmations env h [c1, c2] =
      match confirm env h c1 with
      | some h1 =>
        match confirm env h1 c2 with
        | some h2 => h2
        | none => h1
      | none => h := by
    rw [runConfirmations_cons]
    cases confirm env h c1 with
    | none => rfl
    | some h1 =>
      simp only
      rw [runConfirmations_cons]
      cases confirm env h1 c2 <;> simp [runConfirmations, runSteps]
  rw [hrun]
  cases hc1 : confirm env h c1 with
  | none =>
    refine ⟨by simp, ?_⟩
    intro h1 hh1
    cases hh1
  | some h1 =>
    simp only
    cases hc2 : confirm env h1 c2 with
    | none =>
      simp only
      rcases confirm_users_length env h h1 c1 hc1 with hlen | ⟨_, hlen⟩
      · refine ⟨by omega, ?_⟩
        intro h1' hh1 hne
        cases hh1
        exact absurd (by
          rcases confirm_users env h h1 c1 hc1 with hsame | ⟨_, _, _, _, _, _, hins⟩
          · exact hsame
          · rw [hins] at hlen; simp at hlen) hne
      · refine ⟨by omega, ?_⟩
        intro h1' hh1 _
        cases hh1
        exact ⟨hlen, rfl⟩
    | some h2 =>
      simp only
      rcases confirm_users_length env h h1 c1 hc1 with hlen | ⟨hne1, hlen⟩
      · have hlen2 : h2.store.users.length ≤ h1.store.users.length + 1 := by
          rcases confirm_users_length env h1 h2 c2 hc2 with h' | ⟨_, h'⟩ <;> omega
        refine ⟨by omega, ?_⟩
        intro h1' hh1 hne
        cases hh1
        exact absurd (by
          rcases confirm_users env h h1 c1 hc1 with hsame | ⟨_, _, _, _, _, _, hins⟩
          · exact hsame
          · rw [hins] at hlen; simp at hlen) hne
      · have hsame2 := confirm_twice_same_key env h h1 h2 c1 c2 hsrv huuid hc1 hne1 hc2
        refine ⟨by rw [hsame2]; omega, ?_⟩
        intro h1' hh1 _
        cases hh1
        exact ⟨hlen, hsame2⟩

theorem confirmations_keep_uniquePerUuid_witness :
    UniquePerUuid hubPending.store
      ∧ UniquePerUuid (runConfirmations env0 hubPending confirmTwiceA).store
      ∧ (runConfirmations env0 hubPending confirmTwiceA).store.users.length
          ≤ hubPending.store.users.length + 1 :=
  have key := confirmations_keep_uniquePerUuid env0 hubPending confirmTwiceA (by decide)
  ⟨by decide, key.1, (key.2 _ _ rfl rfl rfl).1⟩

/-- C7, as stated, fails: platform user `u1` is linked to the player `alice` on peer `g1`
and the store has one account per `(serverID, userID)`. `u1` writes `!verify bob`; no
account name starts with `bob`, so the request goes to the peer; the peer answers with
`vcb` and then confirms with the issued code. Now `u1` has two linked accounts on `g1`. -/
theorem linked_user_links_second_account :
    UniquePerUser hubLinked.store
      ∧ (runSteps env0 hubLinked linkBobSteps).store.users
          = [accountA, UserRow.mk "Ann" "u1" "role1" "g1" "bob" "B"]
      ∧ ¬ UniquePerUser (runSteps env0 hubLinked linkBobSteps).store := by
  decide

/-- C7 (amended): from a store with at most one row of `users` per `(serverID, userID)`,
a platform message (the `!verify` commands among them) and a `vcb` event leave at most
one, and a verify confirmation leaves at most one if and only if it is not a successful
confirmation (a single matching pending verification, no row of `users` for
`(uuid, serverID)`) whose pending verification belongs to a platform user who already
has a row of `users` on that peer; so a finite sequence of such steps without such a
confirmation keeps the property. A `vcb` event and a `!verify` command never write to
`users`. -/
theorem steps_keep_uniquePerUser_unless_relinked (env : Platform) (h : Hub)
    (steps : List LinkStep) (hU : UniquePerUser h.store) :
    (∀ m, UniquePerUser (onMessage env h m).store)
      ∧ (∀ srv data, UniquePerUser (Server.onVcb srv h data).store)
      ∧ (∀ c h1, confirm env h c = some h1 →
          (UniquePerUser h1.store ↔ relinks env h c = false))
      ∧ (runRelinks env h steps = false → UniquePerUser (runSteps env h steps).store)
      ∧ (∀ srv data, (Server.onVcb srv h data).store.users = h.store.users)
      ∧ (∀ server m args, (onVerifyCommand h server m args).store = h.store) := by
  refine ⟨?_, ?_, ?_, runSteps_keeps_uniquePerUser env steps h hU, ?_, ?_⟩
  · intro m
    exact (linkStep_uniquePerUser_iff env h _ (LinkStep.message m) rfl hU).2 rfl
  · intro srv data
    exact (linkStep_uniquePerUser_iff env h _ (LinkStep.vcb srv data) rfl hU).2 rfl
  · intro c h1 hc
    exact linkStep_uniquePerUser_iff env h h1 (LinkStep.confirm c) hc hU
  · intro srv data
    exact onVcb_users srv h data
  · intro server m args
    unfold onVerifyCommand
    split
    · dsimp only [Hub.push]; split <;> rfl
    · rfl

theorem steps_keep_uniquePerUser_unless_relinked_witness :
    UniquePerUser hub0.store
      ∧ runRelinks env0 hub0 linkBobSteps = false
      ∧ (runSteps env0 hub0 linkBobSteps).store.users
          = [UserRow.mk "Ann" "u1" "role1" "g1" "bob" "B"]
      ∧ UniquePerUser (runSteps env0 hub0 linkBobSteps).store
      ∧ UniquePerUser (runSteps env0 hubLinked (linkBobSteps.take 2)).store
      ∧ relinks env0 (runSteps env0 hubLinked (linkBobSteps.take 2))
          (Confirmation.event srv0 verifyB) = true
      ∧ ¬ UniquePerUser
          (srv0.onVerify (runSteps env0 hubLinked (linkBobSteps.take 2)) verifyB).store :=
  ⟨by decide, by decide, by decide,
    (steps_keep_uniquePerUser_unless_relinked env0 hub0 linkBobSteps (by decide)).2.2.2.1
      (by decide),
    by decide, by decide,
    fun hU1 => absurd
      (((steps_keep_uniquePerUser_unless_relinked env0
          (runSteps env0 hubLinked (linkBobSteps.take 2)) [] (by decide)).2.2.1
        (Confirmation.event srv0 verifyB) _ rfl).1 hU1)
      (by decide)⟩

/-! ## The two entry points of the confirmation -/

theorem sqlEq_congr_right (fold : Bool) (a b c : String) (hab : sqlEq fold a b = true) :
    sqlEq fold c a = sqlEq fold c b := by
  cases fold
  · simp only [sqlEq, Bool.false_eq_true, if_false, beq_iff_eq] at hab ⊢
    rw [hab]
  · simp only [sqlEq, if_true, beq_iff_eq] at hab ⊢
    rw [hab]

/-- Deleting the pending rows of a peer names the same rows under either spelling of a
`serverID` that the collation takes as equal. -/
theorem deleteVerification_congr (st : Store) (a b : String)
    (hab : sqlEq st.foldCase a b = true) :
    st.deleteVerification a = st.deleteVerification b := by
  simp only [Store.deleteVerification, sqlEq_congr_right st.foldCase a b _ hab]

theorem selectVerification_serverID (st : Store) (uuid code : Option String)
    (serverID : String) (row : VerificationRow)
    (hsel : st.selectVerification uuid code serverID = [row]) :
    sqlEq st.foldCase row.serverID serverID = true := by
  have hmem : row ∈ st.selectVerification uuid code serverID := by rw [hsel]; simp
  simp only [Store.selectVerification, List.mem_filter, Bool.and_eq_true] at hmem
  exact hmem.2.2

/-- A confirmation that finds a single pending row while the uuid is already linked changes
neither table and makes no platform call, through either entry point; the `request` is
answered by one `callback` with `error: true` and the message `User already exists!`. -/
theorem verify_duplicate_changes_nothing (env : Platform) (srv : Server) (h : Hub)
    (vd : VerifyData) (data : RequestData) (row : VerificationRow)
    (hpending : h.store.selectVerification (some vd.uuid) (some vd.code) srv.serverID = [row])
    (hdup : h.store.selectUsersByUuid (some vd.uuid) srv.serverID ≠ [])
    (htype : data.type = Atom.str "verify") (huuid : data.uuid = some vd.uuid)
    (hcode : data.code = some vd.code) :
    ((srv.onVerify h vd).store = h.store
        ∧ (srv.onVerify h vd).trace.filter Effect.isPlatformCall
            = h.trace.filter Effect.isPlatformCall)
      ∧ ∃ h1, srv.onRequest env h data = some h1
        ∧ h1.store = h.store
        ∧ h1.trace.filter Effect.isPlatformCall = h.trace.filter Effect.isPlatformCall
        ∧ callbacksOn srv.socket h1.trace = callbacksOn srv.socket h.trace ++
            [[("id", Val.atom data.id), ("error", Val.atom (Atom.bool true)),
              ("message", Val.atom (Atom.str "User already exists!"))]] := by
  refine ⟨?_, ?_⟩
  · simp [Server.onVerify, Hub.push, hpending, hdup, Effect.isPlatformCall, List.filter_append]
  · have hreq : srv.onRequest env h data = some (((h.push (Effect.query
        "SELECT * FROM `verification` WHERE `uuid` = ? AND `code` = ? AND `serverID` = ?;"
        [Atom.ofOpt data.uuid, Atom.ofOpt data.code, Atom.str srv.serverID])).push
        (Effect.query "SELECT * FROM `users` WHERE `uuid` = ? AND `serverID` = ?;"
          [Atom.ofOpt data.uuid, Atom.str srv.serverID])).push (callbackOf srv
        [("id", Val.atom data.id), ("error", Val.atom (Atom.bool true)),
          ("message", Val.atom (Atom.str "User already exists!"))])) := by
      simp [Server.onRequest, Server.requestVerify, Hub.push, htype, huuid, hcode, hpending,
        hdup]
    refine ⟨_, hreq, ?_⟩
    simp [Hub.push, callbackOf, callbacksOn, Effect.isPlatformCall, List.filter_append,
      List.filterMap_append]

/-- C11 fails on the code for the peer event `verify`: uuid `A` is already linked on `g1`
and one pending row matches `(g1, A, ca)`. The handler runs its two SELECTs and stops:
nothing is emitted to the peer, so no duplicate-account error is reported. (Nothing is
inserted or deleted and no platform call is made; the same confirmation sent as a
`request` is answered with `User already exists!`.) -/
theorem onVerify_duplicate_reports_nothing :
    hubDuplicate.store.selectVerification (some "A") (some "ca") "g1" = [pendingA]
      ∧ hubDuplicate.store.selectUsersByUuid (some "A") "g1" = [accountA]
      ∧ emitsOn srv0.socket (srv0.onVerify hubDuplicate verifyA).trace = []
      ∧ (srv0.onVerify hubDuplicate verifyA).trace.filter (fun e => !e.isQuery) = []
      ∧ (srv0.onVerify hubDuplicate verifyA).store = hubDuplicate.store
      ∧ (srv0.onRequest env0 hubDuplicate requestVerifyA).map
          (fun h => emitsOn srv0.socket h.trace)
        = some [("callback", [("id", Val.atom (Atom.str "x")),
            ("error", Val.atom (Atom.bool true)),
            ("message", Val.atom (Atom.str "User already exists!"))])] := by
  decide

/-- C12, as stated, fails: on the successful confirmation of `(g1, A, ca)` the event is
answered by `vcb` with the fields `user`, `userID`, `uuid`, the request by `callback`
with the fields `id`, `error`, `message`: the two replies differ in more than the event
name and the `id` field. -/
theorem verify_replies_differ :
    emitsOn srv0.socket (srv0.onVerify hubPending verifyA).trace
        = [("vcb", [("user", Val.atom (Atom.str "Ann")), ("userID", Val.atom (Atom.str "u1")),
            ("uuid", Val.atom (Atom.str "A"))])]
      ∧ (srv0.onRequest env0 hubPending requestVerifyA).map
          (fun h => emitsOn srv0.socket h.trace)
        = some [("callback", [("id", Val.atom (Atom.str "x")),
            ("error", Val.atom (Atom.bool false)),
            ("message", Val.atom (Atom.str "Success!"))])] := by
  decide

/-- C12 (amended): for every state, session and `(uuid, username, code)`, the peer event
`verify` and the `request` of type `verify` with the same three values leave the same
store, registry and connections and make the same platform calls in the same order; and
when the confirmation succeeds each answers the peer once, the event with
`vcb {user, userID, uuid}`, the request with `callback {id, error: false, message}`. -/
theorem verify_entry_points_agree (env : Platform) (srv : Server) (h : Hub)
    (vd : VerifyData) (data : RequestData)
    (htype : data.type = Atom.str "verify") (huuid : data.uuid = some vd.uuid)
    (hname : data.username = some vd.username) (hcode : data.code = some vd.code) :
    ∃ h1, srv.onRequest env h data = some h1
      ∧ h1.store = (srv.onVerify h vd).store
      ∧ h1.servers = (srv.onVerify h vd).servers
      ∧ h1.closed = (srv.onVerify h vd).closed
      ∧ h1.trace.filter Effect.isPlatformCall
          = (srv.onVerify h vd).trace.filter Effect.isPlatformCall
      ∧ ∀ row, h.store.selectVerification (some vd.uuid) (some vd.code) srv.serverID = [row] →
          h.store.selectUsersByUuid (some vd.uuid) srv.serverID = [] →
          emitsOn srv.socket (srv.onVerify h vd).trace = emitsOn srv.socket h.trace ++
              [("vcb", [("user", Val.atom (Atom.str row.user)),
                ("userID", Val.atom (Atom.str row.userID)),
                ("uuid", Val.atom (Atom.str vd.uuid))])]
            ∧ emitsOn srv.socket h1.trace = emitsOn srv.socket h.trace ++
              [("callback", [("id", Val.atom data.id), ("error", Val.atom (Atom.bool false)),
                ("message", Val.atom (Atom.str "Success!"))])] := by
  have hreq0 : srv.onRequest env h data = srv.requestVerify h data := by
    simp [Server.onRequest, htype]
  rw [hreq0]
  cases hsel : h.store.selectVerification (some vd.uuid) (some vd.code) srv.serverID with
  | nil =>
    rcases hr : srv.requestVerify h data with _ | h1
    · simp [Server.requestVerify, Hub.push, huuid, hcode, hsel] at hr
    · refine ⟨h1, rfl, ?_⟩
      simp [Server.requestVerify, Hub.push, huuid, hcode, hsel] at hr
      subst hr
      simp [Server.onVerify, Hub.push, hsel, callbackOf, Effect.isPlatformCall,
        List.filter_append]
  | cons row rest =>
    cases rest with
    | cons r2 rest2 =>
      rcases hr : srv.requestVerify h data with _ | h1
      · simp [Server.requestVerify, Hub.push, huuid, hcode, hsel] at hr
      · refine ⟨h1, rfl, ?_⟩
        simp [Server.requestVerify, Hub.push, huuid, hcode, hsel] at hr
        subst hr
        simp [Server.onVerify, Hub.push, hsel, callbackOf, Effect.isPlatformCall,
          List.filter_append]
    | nil =>
      by_cases hdup : h.store.selectUsersByUuid (some vd.uuid) srv.serverID = []
      · have hsid := selectVerification_serverID h.store _ _ _ row hsel
        have hdel : ∀ st : Store, st.foldCase = h.store.foldCase →
            st.deleteVerification row.serverID = st.deleteVerification srv.serverID := by
          intro st hst
          exact deleteVerification_congr st _ _ (by rw [hst]; exact hsid)
        rcases hr : srv.requestVerify h data with _ | h1
        · simp [Server.requestVerify, Hub.push, huuid, hcode, hname, hsel, hdup] at hr
        · refine ⟨h1, rfl, ?_⟩
          cases henf : srv.enforceNickname <;>
          · simp [Server.requestVerify, Hub.push, huuid, hcode, hname, hsel, hdup, henf] at hr
            subst hr
            simp [Server.onVerify, Hub.push, hsel, hdup, henf, callbackOf,
              Effect.isPlatformCall, List.filter_append, emitsOn, List.filterMap_append,
              hdel (h.store.insertUser _) rfl]
      · rcases hr : srv.requestVerify h data with _ | h1
        · simp [Server.requestVerify, Hub.push, huuid, hcode, hsel, hdup] at hr
        · refine ⟨h1, rfl, ?_⟩
          simp [Server.requestVerify, Hub.push, huuid, hcode, hsel, hdup] at hr
          subst hr
          simp [Server.onVerify, Hub.push, hsel, hdup, callbackOf, Effect.isPlatformCall,
            List.filter_append]

theorem verify_entry_points_agree_witness :
    ∃ h1, srv0.onRequest env0 hubPending requestVerifyA = some h1
      ∧ h1.store = (srv0.onVerify hubPending verifyA).store
      ∧ h1.trace.filter Effect.isPlatformCall
          = (srv0.onVerify hubPending verifyA).trace.filter Effect.isPlatformCall :=
  have ⟨h1, hreq, hstore, _, _, hcalls, _⟩ :=
    verify_entry_points_agree env0 srv0 hubPending verifyA requestVerifyA rfl rfl rfl rfl
  ⟨h1, hreq, hstore, hcalls⟩

/-! ## Verification callback -/

/-- C20: a `vcb` event whose `error` field is unset appends exactly one row to
`verification`, made of `user`, `userID`, the session's peer, `channelID`, `uuid` and
`code`, and tells the channel that the verification request was sent; a `vcb` event whose
`error` field is set leaves the store as it is and tells the channel that the name does not
exist or the player is not in game. Nothing else happens in either case. -/
theorem onVcb_effect (srv : Server) (h : Hub) (data : VcbData) :
    (data.error = false →
        (srv.onVcb h data).store = h.store.insertVerification
            (VerificationRow.mk data.user data.userID srv.serverID data.channelID data.uuid
              data.code)
          ∧ (srv.onVcb h data).store.verification = h.store.verification ++
              [VerificationRow.mk data.user data.userID srv.serverID data.channelID data.uuid
                data.code]
          ∧ (srv.onVcb h data).store.users = h.store.users
          ∧ (srv.onVcb h data).trace.filter (fun e => !e.isQuery) =
              h.trace.filter (fun e => !e.isQuery) ++
              [Effect.sendMessage (some data.channelID)
                (some "Verification request sent! Please complete verification process in game!")
                none])
      ∧ (data.error = true →
        (srv.onVcb h data).store = h.store
          ∧ (srv.onVcb h data).trace = h.trace ++
              [Effect.sendMessage (some data.channelID)
                (some ("That username doesn't exist or the player is not in game! " ++
                  "Please make sure you are logged into the server and the username matches!"))
                none]) := by
  refine ⟨?_, ?_⟩
  · intro herr
    simp [Server.onVcb, Hub.push, herr, Store.insertVerification, Effect.isQuery,
      List.filter_append]
  · intro herr
    simp [Server.onVcb, Hub.push, herr]

theorem onVcb_effect_witness :
    (srv0.onVcb hub0 vcbAlice).store.verification = [pendingA]
      ∧ (srv0.onVcb hub0 vcbNotFound).store = hub0.store :=
  ⟨((onVcb_effect srv0 hub0 vcbAlice).1 rfl).2.1, ((onVcb_effect srv0 hub0 vcbNotFound).2 rfl).1⟩

/-! ## Platform messages -/

/-- C18, as stated, fails. First: a plain message written by the bot account itself in a
chat channel without verification is dropped, no `message` event is emitted. Second:
platform user `u1` has two linked accounts on `g1`; the plain message in a chat channel
that requires verification is deleted and answered with the warning, no `message` event
is emitted. -/
theorem onMessage_chat_not_relayed :
    (onMessage env0 hub0 chatMessageOfBot).trace = []
      ∧ hubTwoAccounts.store.selectUsersByUserID "u1" "g1" = [accountA, accountBob]
      ∧ (onMessage env0 hubTwoAccounts chatMessageOfU1).trace =
          [Effect.query "SELECT * FROM `users` WHERE `userID` = ? AND `serverID` = ?;"
              [Atom.str "u1", Atom.str "g1"],
            Effect.deleteMessage (some "c1") (some "m9"),
            Effect.sendMessage (some "c1")
              (some "You must first verify your account before you can send messages here!")
              none] := by
  decide

/-- C18 (amended): for a platform message that is not a command, written in a declared
channel with `chat` set by an author who is neither the bot itself nor the webhook of
that channel: without `requireVerification` one `message` event with sender username
`null` is emitted and no store lookup is made; with `requireVerification`, if the lookup
of the author on this peer returns exactly one account, one `message` event with the
`username` and `uuid` of that account is emitted, and otherwise (no account, or more than
one) nothing is emitted, the platform message is deleted and the warning is sent to the
channel. The store is never changed. -/
theorem onMessage_chat (env : Platform) (h : Hub) (m : BotMessage) (server : Server)
    (channel : Channel)
    (hserver : h.servers m.guildID = some server)
    (hchannel : objGet server.channels m.channelID = some channel)
    (hauthor : m.userID ≠ env.botId ∧ m.userID ≠ channel.webhookID)
    (hplain : m.message.data.take 1 ≠ ['!'])
    (hchat : channel.chat = true) :
    (onMessage env h m).store = h.store
      ∧ (channel.requireVerification = false →
          (onMessage env h m).trace = h.trace ++
            [Effect.emit server.socket "message"
              [("sender", Val.obj [("user", Atom.str m.user), ("userID", Atom.str m.userID),
                  ("username", Atom.null)]),
                ("message", Val.atom (Atom.str m.message)),
                ("channelID", Val.atom (Atom.str m.channelID))]])
      ∧ (channel.requireVerification = true →
          ∀ row, h.store.selectUsersByUserID m.userID m.guildID = [row] →
          (onMessage env h m).trace = h.trace ++
            [Effect.query "SELECT * FROM `users` WHERE `userID` = ? AND `serverID` = ?;"
                [Atom.str m.userID, Atom.str m.guildID],
              Effect.emit server.socket "message"
                [("sender", Val.obj [("user", Atom.str m.user), ("userID", Atom.str m.userID),
                    ("username", Atom.str row.username), ("uuid", Atom.str row.uuid)]),
                  ("message", Val.atom (Atom.str m.message)),
                  ("channelID", Val.atom (Atom.str m.channelID))]])
      ∧ (channel.requireVerification = true →
          (h.store.selectUsersByUserID m.userID m.guildID).length ≠ 1 →
          (onMessage env h m).trace = h.trace ++
            [Effect.query "SELECT * FROM `users` WHERE `userID` = ? AND `serverID` = ?;"
                [Atom.str m.userID, Atom.str m.guildID],
              Effect.deleteMessage (some m.channelID) (some m.messageID),
              Effect.sendMessage (some m.channelID)
                (some "You must first verify your account before you can send messages here!")
                none]) := by
  have hrun : onMessage env h m = onChatMessage h server channel m := by
    simp [onMessage, hserver, hchannel, hauthor, hplain]
  rw [hrun]
  refine ⟨?_, ?_, ?_, ?_⟩
  · unfold onChatMessage
    simp only [hchat, if_true, Hub.push]
    split
    · split <;> rfl
    · rfl
  · intro hreq
    simp [onChatMessage, hchat, hreq, Hub.push]
  · intro hreq row hrow
    simp [onChatMessage, hchat, hreq, Hub.push, hrow]
  · intro hreq hlen
    unfold onChatMessage
    simp only [hchat, hreq, if_true, Hub.push]
    split
    · rename_i row hrow
      rw [hrow] at hlen
      simp at hlen
    · simp

theorem onMessage_chat_witness :
    (onMessage env0 hub0 chatMessage0).store = hub0.store
      ∧ (onMessage env0 hub0 chatMessage0).trace =
          [Effect.emit 7 "message"
            [("sender", Val.obj [("user", Atom.str "Ann"), ("userID", Atom.str "u9"),
                ("username", Atom.null)]),
              ("message", Val.atom (Atom.str "hello")),
              ("channelID", Val.atom (Atom.str "c1"))]] :=
  have key := onMessage_chat env0 hub0 chatMessage0 srv0 (Channel.mk "w1" "wt1" true true false false)
    (by decide) (by decide) (by decide) (by decide) rfl
  ⟨key.1, key.2.1 rfl⟩

theorem splitSpaces_ne_nil (t : List Char) : splitSpaces t ≠ [] := by
  induction t with
  | nil => simp [splitSpaces]
  | cons c cs ih =>
    unfold splitSpaces
    split
    · simp
    · split <;> simp

theorem splitSpaces_append (w rest : List Char) (hw : ' ' ∉ w) :
    splitSpaces (w ++ ' ' :: rest) = w :: splitSpaces rest := by
  induction w with
  | nil =>
    simp only [List.nil_append]
    rw [splitSpaces]
    cases hr : splitSpaces rest with
    | nil => exact absurd hr (splitSpaces_ne_nil rest)
    | cons a as => simp
  | cons c cs ih =>
    simp only [List.mem_cons, not_or] at hw
    simp only [List.cons_append]
    rw [splitSpaces, ih hw.2]
    simp [Ne.symm hw.1]

theorem splitSpaces_nospace (w : List Char) (hw : ' ' ∉ w) : splitSpaces w = [w] := by
  induction w with
  | nil => rfl
  | cons c cs ih =>
    simp only [List.mem_cons, not_or] at hw
    unfold splitSpaces
    rw [ih hw.2]
    simp [Ne.symm hw.1]

/-- Lower-casing a character of `[a-zA-Z0-9]` never yields a character that is special in
a LIKE pattern. -/
theorem lowerChar_wordChar (c : Char) (hw : isWordChar c = true) (hu : c ≠ '_') :
    lowerChar c ≠ '%' ∧ lowerChar c ≠ '_' ∧ lowerChar c ≠ '\\' := by
  unfold lowerChar
  split
  · rename_i hr
    obtain ⟨h1, h2⟩ := hr
    generalize c.toNat = n at h1 h2
    interval_cases n <;> decide
  · refine ⟨?_, hu, ?_⟩
    · rintro rfl
      exact absurd hw (by decide)
    · rintro rfl
      exact absurd hw (by decide)

theorem tails_any_isEmpty (t : List Char) : (t.tails.any fun s => s.isEmpty) = true := by
  induction t with
  | nil => rfl
  | cons c cs ih => simp [List.tails, ih]

/-- A LIKE pattern made of plain characters and a final `%` is a prefix test. -/
theorem sqlLike_startsWith (fold : Bool) (name : List Char)
    (hname : ∀ p ∈ name, p ≠ '%' ∧ p ≠ '_' ∧ p ≠ '\\') :
    ∀ text, sqlLike fold (name ++ ['%']) text = startsWithSql fold name text := by
  induction name with
  | nil =>
    intro text
    simp only [List.nil_append, startsWithSql]
    unfold sqlLike
    simp only [if_true]
    have : (fun s => sqlLike fold [] s) = fun s : List Char => s.isEmpty := by
      funext s; simp [sqlLike]
    rw [this]
    exact tails_any_isEmpty text
  | cons p ps ih =>
    intro text
    have hp := hname p (by simp)
    have hps : ∀ q ∈ ps, q ≠ '%' ∧ q ≠ '_' ∧ q ≠ '\\' := fun q hq => hname q (by simp [hq])
    simp only [List.cons_append]
    unfold sqlLike
    simp only [hp.1, hp.2.1, hp.2.2, if_false]
    cases text with
    | nil => simp [startsWithSql]
    | cons c cs => simp [startsWithSql, ih hps]

theorem escapeUnderscores_id (l : List Char) (hl : '_' ∉ l) : escapeUnderscores l = l := by
  induction l with
  | nil => rfl
  | cons c cs ih =>
    simp only [List.mem_cons, not_or] at hl
    simp [escapeUnderscores, Ne.symm hl.1, ih hl.2]

/-- Without an underscore in the argument the sanitised name is the argument stripped to
`[a-zA-Z0-9]` and lower-cased, and no character of it is special in a LIKE pattern. -/
theorem sanitiseName_plain (arg : List Char) (hus : '_' ∉ arg) :
    sanitiseName arg = (arg.filter isWordChar).map lowerChar
      ∧ ∀ p ∈ sanitiseName arg, p ≠ '%' ∧ p ≠ '_' ∧ p ≠ '\\' := by
  have hf : '_' ∉ arg.filter isWordChar := fun hmem => hus (List.mem_filter.1 hmem).1
  have heq : sanitiseName arg = (arg.filter isWordChar).map lowerChar := by
    simp [sanitiseName, escapeUnderscores_id _ hf]
  refine ⟨heq, ?_⟩
  intro p hp
  rw [heq] at hp
  obtain ⟨c, hc, rfl⟩ := List.mem_map.1 hp
  have hcw := List.mem_filter.1 hc
  exact lowerChar_wordChar c hcw.2 (fun hcu => hus (hcu ▸ hcw.1))

/-- C19 fails on the code: the only linked player of `g1` is `steve2`, so no linked account
has a username equal to `steve` in any letter case; yet `!verify steve` is refused: the
query of line 750 matches every username that starts with `steve`, the channel is told
that the player is already verified and nothing is emitted to the peer. -/
theorem verify_command_refused_for_shorter_name :
    (hubSteve2.store.users.all fun r =>
        !(r.username.data.map lowerChar == "steve".data.map lowerChar)) = true
      ∧ (onMessage env0 hubSteve2 verifySteveCommand).trace =
          [Effect.query (likeQueryText "steve".data) [Atom.str "g1"],
            Effect.sendMessage (some "c1") (some "That player is already verified!") none] := by
  decide

/-- The second defect of the same query: the player `a_b` is linked on `g1`, and
`!verify a_b` is not refused. Line 747 writes `!_` for the underscore, the query gives no
`ESCAPE` clause, so the pattern `a!_b%` asks for a literal `!` followed by any character;
nothing is found and the `verify` event goes to the peer. -/
theorem verify_command_emitted_for_linked_name :
    (hubUnderscore.store.users.any fun r => r.username == "a_b" && r.serverID == "g1") = true
      ∧ (onMessage env0 hubUnderscore verifyUnderscoreCommand).trace =
          [Effect.query (likeQueryText "a!_b".data) [Atom.str "g1"],
            Effect.emit 7 "verify"
              [("discord", Val.obj [("username", Atom.str "Ann"),
                  ("discriminator", Atom.str "0001")]),
                ("user", Val.atom (Atom.str "Ann")),
                ("userID", Val.atom (Atom.str "u1")),
                ("channelID", Val.atom (Atom.str "c1")),
                ("username", Val.atom (Atom.str "a_b")),
                ("code", Val.atom (Atom.str "cb"))]] := by
  decide

/-- A command name that holds a blank still holds it when lower-cased. -/
theorem space_mem_toLowerCase (l : List Char) (hmem : ' ' ∈ l) : ' ' ∈ toLowerCase l := by
  induction l with
  | nil => simp at hmem
  | cons c cs ih =>
    rcases List.mem_cons.1 hmem with hc | hcs
    · subst hc
      have hhead : toLowerCase (' ' :: cs) = ' ' :: toLowerCase cs := by
        rw [toLowerCase, if_neg (by decide), if_neg (by decide)]
        rfl
      rw [hhead]
      exact List.mem_cons_self _ _
    · have hrec := ih hcs
      rw [toLowerCase]
      split_ifs <;> simp [hrec]

/-- What the check of lines 747-775 decides for a name free of underscores: for a
`!verify <name>` command with exactly one argument, written in a declared channel by an
author who is neither the bot itself nor the webhook of that channel, the outbound
`verify` event (platform user, channel, the name as typed, the code) is emitted if and
only if no linked account of this peer has a username that starts, under the collation
of the store, with the name stripped to `[a-zA-Z0-9]` and lower-cased; otherwise the
channel is told that the player is already verified and nothing is emitted. The store is
unchanged in either case. -/
theorem onMessage_verify_command (env : Platform) (h : Hub) (m : BotMessage)
    (server : Server) (channel : Channel) (cmd arg : List Char)
    (hserver : h.servers m.guildID = some server)
    (hchannel : objGet server.channels m.channelID = some channel)
    (hauthor : m.userID ≠ env.botId ∧ m.userID ≠ channel.webhookID)
    (hmsg : m.message.data = '!' :: (cmd ++ ' ' :: arg))
    (hcmd : toLowerCase cmd = "verify".data)
    (harg : ' ' ∉ arg) (hus : '_' ∉ arg) :
    (onMessage env h m).store = h.store
      ∧ ((∀ r ∈ h.store.users,
            ¬ (startsWithSql h.store.foldCase ((arg.filter isWordChar).map lowerChar)
                  r.username.data = true
                ∧ sqlEq h.store.foldCase r.serverID m.guildID = true)) →
          (onMessage env h m).trace = h.trace ++
            [Effect.query (likeQueryText ((arg.filter isWordChar).map lowerChar))
                [Atom.str m.guildID],
              Effect.emit server.socket "verify"
                [("discord", Val.obj [("username", Atom.str m.authorUsername),
                    ("discriminator", Atom.str m.authorDiscriminator)]),
                  ("user", Val.atom (Atom.str m.user)),
                  ("userID", Val.atom (Atom.str m.userID)),
                  ("channelID", Val.atom (Atom.str m.channelID)),
                  ("username", Val.atom (Atom.str (String.mk arg))),
                  ("code", Val.atom (Atom.str m.code))]])
      ∧ ((∃ r ∈ h.store.users,
            startsWithSql h.store.foldCase ((arg.filter isWordChar).map lowerChar)
                r.username.data = true
              ∧ sqlEq h.store.foldCase r.serverID m.guildID = true) →
          (onMessage env h m).trace = h.trace ++
            [Effect.query (likeQueryText ((arg.filter isWordChar).map lowerChar))
                [Atom.str m.guildID],
              Effect.sendMessage (some m.channelID) (some "That player is already verified!")
                none]) := by
  have hcmdsp : ' ' ∉ cmd := by
    intro hmem
    have := space_mem_toLowerCase cmd hmem
    rw [hcmd] at this
    revert this
    decide
  have hsplit : splitSpaces (cmd ++ ' ' :: arg) = [cmd, arg] := by
    rw [splitSpaces_append cmd arg hcmdsp, splitSpaces_nospace arg harg]
  have hrun : onMessage env h m = onVerifyCommand h server m [arg] := by
    simp [onMessage, hserver, hchannel, hauthor, hmsg, hsplit, hcmd]
  obtain ⟨hsan, hplainchars⟩ := sanitiseName_plain arg hus
  have hsel : h.store.selectUsersLike (sanitiseName arg) m.guildID =
      h.store.users.filter fun r =>
        startsWithSql h.store.foldCase ((arg.filter isWordChar).map lowerChar) r.username.data
          && sqlEq h.store.foldCase r.serverID m.guildID := by
    unfold Store.selectUsersLike
    congr 1
    funext r
    rw [sqlLike_startsWith h.store.foldCase (sanitiseName arg) hplainchars, hsan]
  rw [hrun]
  refine ⟨?_, ?_, ?_⟩
  · unfold onVerifyCommand
    simp only [Hub.push]
    split <;> rfl
  · intro hnone
    have hnil : h.store.selectUsersLike (sanitiseName arg) m.guildID = [] := by
      rw [hsel, List.filter_eq_nil_iff]
      intro r hr
      simpa using hnone r hr
    rw [hsan] at hnil
    simp [onVerifyCommand, Hub.push, hnil, hsan]
  · rintro ⟨r, hr, hpre, hsid⟩
    have hne : (h.store.selectUsersLike (sanitiseName arg) m.guildID).length ≠ 0 := by
      rw [hsel]
      intro hlen
      have hnil := List.length_eq_zero.1 hlen
      rw [List.filter_eq_nil_iff] at hnil
      exact hnil r hr (by simp [hpre, hsid])
    rw [hsan] at hne
    have hne2 : h.store.selectUsersLike (List.map lowerChar (List.filter isWordChar arg))
        m.guildID ≠ [] := fun hnil => hne (by rw [hnil]; rfl)
    simp [onVerifyCommand, Hub.push, hne2, hsan]

theorem onMessage_verify_command_witness :
    (onMessage env0 hubLinked verifyBobCommand).store = hubLinked.store
      ∧ (onMessage env0 hubLinked verifyBobCommand).trace =
          [Effect.query (likeQueryText "bob".data) [Atom.str "g1"],
            Effect.emit 7 "verify"
              [("discord", Val.obj [("username", Atom.str "Ann"),
                  ("discriminator", Atom.str "0001")]),
                ("user", Val.atom (Atom.str "Ann")),
                ("userID", Val.atom (Atom.str "u1")),
                ("channelID", Val.atom (Atom.str "c1")),
                ("username", Val.atom (Atom.str "bob")),
                ("code", Val.atom (Atom.str "cb"))]] :=
  have key := onMessage_verify_command env0 hubLinked verifyBobCommand srv0
    (Channel.mk "w1" "wt1" true true false false) "verify".data "bob".data
    (by decide) (by decide) (by decide) (by decide) (by decide) (by decide) (by decide)
  ⟨key.1, key.2.1 (by decide)⟩

/-! ## Chat relay -/

theorem sendMessage_fold (username uuid message : String) (entries : List (String × Channel)) :
    ∀ h : Hub,
      entries.foldl (fun h1 entry =>
          if entry.2.chat then entry.2.sendMessage h1 username uuid message else h1) h
        = { h with trace := (h.trace ++
            (entries.filter fun entry => entry.2.chat).map fun entry =>
              Effect.webhookSend entry.2.webhookID entry.2.webhookToken message username
                (avatarURL uuid)) } := by
  induction entries with
  | nil => intro h; simp
  | cons e es ih =>
    intro h
    simp only [List.foldl_cons]
    rw [ih]
    cases hc : e.2.chat <;> simp [hc, Channel.sendMessage, Hub.push]

/-- Method `sendMessage` of a session adds the webhook sends of its chat channels to the
trace and does nothing else. -/
theorem sendMessage_eq (srv : Server) (h : Hub) (username uuid message : String) :
    srv.sendMessage h username uuid message
      = { h with trace := h.trace ++ webhookSends srv username uuid message } := by
  unfold Server.sendMessage webhookSends
  exact sendMessage_fold username uuid message srv.channels h

/-- The listener of `chat` with tags: the lookup, then the relay of the rewritten text. -/
theorem onChat_tags (srv : Server) (h : Hub) (data : ChatData)
    (htags : matchTags (toLowerCase data.message.data) ≠ []) :
    srv.onChat h data = { h with trace := (h.trace ++
      Effect.query findInSetQueryText
          [Atom.str (String.mk (tagList (matchTags (toLowerCase data.message.data))))]
        :: webhookSends srv data.username data.uuid
          (String.mk ((h.store.selectUsersInSet
            (tagList (matchTags (toLowerCase data.message.data)))).foldl resolveRow
              data.message.data))) } := by
  simp [Server.onChat, htags, sendMessage_eq, Hub.push, findInSetQueryText]

/-- The listener of `chat` without tags: the relay of the text as it came. -/
theorem onChat_no_tags (srv : Server) (h : Hub) (data : ChatData)
    (htags : matchTags (toLowerCase data.message.data) = []) :
    srv.onChat h data = { h with trace := (h.trace ++
      webhookSends srv data.username data.uuid data.message) } := by
  simp [Server.onChat, htags, sendMessage_eq]

/-- C17: a `chat` event of the peer leaves the store as it is, makes at most the one batch
lookup, and then sends the message (the text as rewritten by the mention loop, or the
text itself when it holds no tag) through the webhook of every channel of the session
whose `chat` flag is set, once for each, and through no other webhook; every send carries
the `username` of the event and the avatar address built from its `uuid`. -/
theorem onChat_relay (srv : Server) (h : Hub) (data : ChatData) :
    ∃ lookups sends,
      (srv.onChat h data).trace = h.trace ++ lookups ++ sends
        ∧ (∀ e ∈ lookups, Effect.isQuery e = true) ∧ lookups.length ≤ 1
        ∧ sends.Perm
            ((srv.channels.filter fun entry => entry.2.chat).map fun entry =>
              Effect.webhookSend entry.2.webhookID entry.2.webhookToken
                (if matchTags (toLowerCase data.message.data) = [] then data.message
                  else String.mk ((h.store.selectUsersInSet
                    (tagList (matchTags (toLowerCase data.message.data)))).foldl resolveRow
                      data.message.data))
                data.username ("https://minotar.net/cube/" ++ data.uuid ++ "/128.png"))
        ∧ (srv.onChat h data).store = h.store
        ∧ (srv.onChat h data).servers = h.servers
        ∧ (srv.onChat h data).closed = h.closed := by
  by_cases htags : matchTags (toLowerCase data.message.data) = []
  · refine ⟨[], webhookSends srv data.username data.uuid data.message, ?_, by simp, by simp,
      ?_, ?_, ?_, ?_⟩
    · rw [onChat_no_tags srv h data htags]; simp
    · simp only [htags, if_true]
      exact List.Perm.refl _
    all_goals rw [onChat_no_tags srv h data htags]
  · refine ⟨[Effect.query findInSetQueryText
        [Atom.str (String.mk (tagList (matchTags (toLowerCase data.message.data))))]],
      webhookSends srv data.username data.uuid
        (String.mk ((h.store.selectUsersInSet
          (tagList (matchTags (toLowerCase data.message.data)))).foldl resolveRow
            data.message.data)), ?_, by simp [Effect.isQuery], by simp, ?_, ?_, ?_, ?_⟩
    · rw [onChat_tags srv h data htags]; simp
    · simp only [htags, if_false]
      exact List.Perm.refl _
    all_goals rw [onChat_tags srv h data htags]


/-- The relay on a session with three channels, the second without `chat`: the first and
the third webhook get the message once each, the second gets nothing. -/
theorem onChat_relay_three_channels :
    (srvThree.onChat hub0 (ChatData.mk "good morning" "Steve" "S")).trace =
      [Effect.webhookSend "w1" "wt1" "good morning" "Steve" "https://minotar.net/cube/S/128.png",
        Effect.webhookSend "w3" "wt3" "good morning" "Steve"
          "https://minotar.net/cube/S/128.png"] := by
  decide

/-- C16, as stated, fails: the text made of `@` and the KELVIN SIGN holds no `@` followed
by a word character, but its lower-cased form is `@k`, so the batch lookup is made (for
the tag list `k`). The text is relayed as it came. -/
theorem onChat_lookup_without_tag :
    matchTags kelvinChat.message.data = []
      ∧ (srv0.onChat hub0 kelvinChat).trace =
          [Effect.query findInSetQueryText [Atom.str "k"],
            Effect.webhookSend "w1" "wt1" kelvinChat.message "Steve"
              "https://minotar.net/cube/S/128.png"] := by
  decide

/-- C16 (amended): when the lower-cased form of the chat text, which is what the listener
scans, holds no `@` followed by a word character, the text sent to the chat channels is
the text of the event, character for character, and nothing else happens: no store
lookup, no change of state. -/
theorem onChat_without_tags (srv : Server) (h : Hub) (data : ChatData)
    (htags : matchTags (toLowerCase data.message.data) = []) :
    (srv.onChat h data).trace = h.trace ++
        ((srv.channels.filter fun entry => entry.2.chat).map fun entry =>
          Effect.webhookSend entry.2.webhookID entry.2.webhookToken data.message
            data.username ("https://minotar.net/cube/" ++ data.uuid ++ "/128.png"))
      ∧ (srv.onChat h data).trace.filter Effect.isQuery = h.trace.filter Effect.isQuery
      ∧ (srv.onChat h data).store = h.store := by
  rw [onChat_no_tags srv h data htags]
  refine ⟨rfl, ?_, rfl⟩
  have hnil : (webhookSends srv data.username data.uuid data.message).filter Effect.isQuery
      = [] := by
    rw [List.filter_eq_nil_iff]
    intro e he
    simp only [webhookSends, List.mem_map] at he
    obtain ⟨entry, _, rfl⟩ := he
    simp [Effect.isQuery]
  simp only [List.filter_append, hnil, List.append_nil]

theorem onChat_without_tags_witness :
    (srv0.onChat hub0 (ChatData.mk "hi there @ all" "Steve" "S")).trace =
        [Effect.webhookSend "w1" "wt1" "hi there @ all" "Steve"
          "https://minotar.net/cube/S/128.png"]
      ∧ (srv0.onChat hub0 (ChatData.mk "hi there @ all" "Steve" "S")).store = hub0.store :=
  have key := onChat_without_tags srv0 hub0 (ChatData.mk "hi there @ all" "Steve" "S")
    (by decide)
  ⟨key.1, key.2.2⟩

/-- C15 fails on the code: the stores of `hub0` and `hubOtherPeer` hold the same accounts of
peer `g1` (none); the second also holds the account of `alice` on the other peer `g2`.
The chat text `hi @alice and @ALICE` of peer `g1` is relayed unchanged from the first
and with both tokens rewritten to the mention of the `g2` account from the second. -/
theorem onChat_resolves_foreign_account :
    (hub0.store.users.filter fun r => r.serverID == "g1") = []
      ∧ (hubOtherPeer.store.users.filter fun r => r.serverID == "g1") = []
      ∧ (srv0.onChat hub0 chatAlice).trace.filter Effect.isPlatformCall =
          [Effect.webhookSend "w1" "wt1" "hi @alice and @ALICE" "Steve"
            "https://minotar.net/cube/S/128.png"]
      ∧ (srv0.onChat hubOtherPeer chatAlice).trace.filter Effect.isPlatformCall =
          [Effect.webhookSend "w1" "wt1" "hi <@!u7> and <@!u7>" "Steve"
            "https://minotar.net/cube/S/128.png"] := by
  decide

/-! ## Mention resolution -/

theorem lowerChar_at : lowerChar '@' = '@' ∧ lowerChar '<' = '<' ∧ lowerChar '!' = '!'
    ∧ lowerChar '>' = '>' := by
  decide

/-- Only `@` lower-cases to `@`. -/
theorem lowerChar_eq_at (c : Char) (hc : lowerChar c = '@') : c = '@' := by
  unfold lowerChar at hc
  split at hc
  · rename_i hr
    obtain ⟨h1, h2⟩ := hr
    generalize c.toNat = n at h1 h2 hc
    exfalso
    revert hc
    interval_cases n <;> decide
  · exact hc

/-- Lower-casing keeps a character inside, or outside, the class `\w`. -/
theorem isWordChar_lowerChar (c : Char) : isWordChar (lowerChar c) = isWordChar c := by
  unfold lowerChar
  split
  · rename_i hr
    obtain ⟨h1, h2⟩ := hr
    have hw : isWordChar c = true := by
      simp only [isWordChar, Bool.or_eq_true, Bool.and_eq_true, decide_eq_true_eq]
      exact Or.inl (Or.inl (Or.inr ⟨h1, h2⟩))
    rw [hw]
    generalize c.toNat = n at h1 h2
    interval_cases n <;> decide
  · rfl

/-- A word character is none of `@`, `<`, `!`, also when letter case is ignored. -/
theorem wordChar_not_special (p : Char) (hp : isWordChar p = true) :
    lowerChar p ≠ '@' ∧ lowerChar p ≠ '<' ∧ lowerChar p ≠ '!' := by
  have hl : isWordChar (lowerChar p) = true := by rw [isWordChar_lowerChar]; exact hp
  refine ⟨?_, ?_, ?_⟩ <;>
  · intro heq
    rw [heq] at hl
    revert hl
    decide

/-- A character that a word character matches, letter case ignored, is a word character. -/
theorem wordChar_of_match (p c : Char) (hp : isWordChar p = true)
    (hpc : lowerChar p = lowerChar c) : isWordChar c = true := by
  rw [← isWordChar_lowerChar c, ← hpc, isWordChar_lowerChar]
  exact hp

theorem getSubstitution_plain (matched before after : List Char) (template : List Char)
    (ht : '$' ∉ template) : getSubstitution matched before after template = template := by
  induction template with
  | nil => rfl
  | cons c t ih =>
    simp only [List.mem_cons, not_or] at ht
    cases t with
    | nil => rfl
    | cons d rest =>
      rw [getSubstitution]
      simp only [Ne.symm ht.1, if_false]
      rw [ih ht.2]

theorem replaceMention_nil (name template : List Char) (k : Nat) (before : List Char) :
    replaceMention name template k before [] = [] := by
  cases k <;> rfl

theorem replaceMention_match (name template : List Char) (ht : '$' ∉ template)
    (before : List Char) (c : Char) (cs : List Char)
    (hm : regexMatchAt ('@' :: name) (c :: cs) = true) :
    replaceMention name template 0 before (c :: cs)
      = template ++ replaceMention name template name.length (before ++ [c]) cs := by
  rw [replaceMention]
  simp only [hm, if_true]
  rw [getSubstitution_plain _ _ _ _ ht]

theorem replaceMention_no_match (name template : List Char) (before : List Char) (c : Char)
    (cs : List Char) (hm : regexMatchAt ('@' :: name) (c :: cs) = false) :
    replaceMention name template 0 before (c :: cs)
      = c :: replaceMention name template 0 (before ++ [c]) cs := by
  rw [replaceMention]
  simp [hm]

/-- With a template free of `$` the text before a match plays no part. -/
theorem replaceMention_before (name template : List Char) (ht : '$' ∉ template)
    (text : List Char) :
    ∀ (k : Nat) (b1 b2 : List Char),
      replaceMention name template k b1 text = replaceMention name template k b2 text := by
  induction text with
  | nil => intro k b1 b2; rw [replaceMention_nil, replaceMention_nil]
  | cons c cs ih =>
    intro k b1 b2
    cases k with
    | succ k => exact ih k _ _
    | zero =>
      cases hm : regexMatchAt ('@' :: name) (c :: cs)
      · rw [replaceMention_no_match _ _ _ _ _ hm, replaceMention_no_match _ _ _ _ _ hm,
          ih 0 (b1 ++ [c]) (b2 ++ [c])]
      · rw [replaceMention_match _ _ ht _ _ _ hm, replaceMention_match _ _ ht _ _ _ hm,
          ih name.length (b1 ++ [c]) (b2 ++ [c])]

/-- A match of `@name` starts at an `@`. -/
theorem regexMatchAt_at (name : List Char) (c : Char) (cs : List Char)
    (hm : regexMatchAt ('@' :: name) (c :: cs) = true) :
    c = '@' ∧ regexMatchAt name cs = true := by
  simp only [regexMatchAt, Bool.and_eq_true, beq_iff_eq] at hm
  exact ⟨lowerChar_eq_at c (by rw [← hm.1]; exact lowerChar_at.1), hm.2⟩

/-- A run of word characters matches at the start of the rewritten text exactly when it
matches at the start of the text: the rewriting leaves everything before the first match
in place, and a mention starts with `<`. -/
theorem regexMatchAt_replaceMention (name rest : List Char) (ht : '$' ∉ '<' :: rest)
    (w : List Char) (hw : ∀ c ∈ w, isWordChar c = true) :
    ∀ (text before : List Char),
      regexMatchAt w (replaceMention name ('<' :: rest) 0 before text) = regexMatchAt w text := by
  induction w with
  | nil => intro text before; simp [regexMatchAt]
  | cons p ps ih =>
    intro text before
    have hp := hw p (by simp)
    have hps : ∀ c ∈ ps, isWordChar c = true := fun c hc => hw c (by simp [hc])
    cases text with
    | nil => rw [replaceMention_nil]
    | cons c cs =>
      cases hm : regexMatchAt ('@' :: name) (c :: cs)
      · rw [replaceMention_no_match _ _ _ _ _ hm]
        simp only [regexMatchAt, ih hps]
      · rw [replaceMention_match _ _ ht _ _ _ hm]
        obtain ⟨hc, _⟩ := regexMatchAt_at name c cs hm
        subst hc
        have hsp := wordChar_not_special p hp
        have h1 : (lowerChar p == lowerChar '<') = false := by
          rw [lowerChar_at.2.1]; simp [hsp.2.1]
        have h2 : (lowerChar p == lowerChar '@') = false := by
          rw [lowerChar_at.1]; simp [hsp.1]
        simp only [List.cons_append, regexMatchAt, h1, h2, Bool.false_and]

/-- Text without `@` in front of a text does not add a match of `@name`. -/
theorem regexOccurs_append_plain (name xs rest : List Char) (hxs : '@' ∉ xs) :
    regexOccurs ('@' :: name) (xs ++ rest) = regexOccurs ('@' :: name) rest := by
  induction xs with
  | nil => rfl
  | cons x xs ih =>
    simp only [List.mem_cons, not_or] at hxs
    have hx : (lowerChar '@' == lowerChar x) = false := by
      rw [beq_eq_false_iff_ne, lowerChar_at.1]
      intro heq
      exact hxs.1 (lowerChar_eq_at x heq.symm).symm
    simp only [List.cons_append, regexOccurs, regexMatchAt, hx, Bool.false_and, Bool.false_or]
    exact ih hxs.2

/-- After the turn of a row no match of its `@name` is left in the text. -/
theorem regexOccurs_replaceMention (name : List Char) (userID : String)
    (hname : ∀ c ∈ name, isWordChar c = true) (hne : name ≠ [])
    (hid : ∀ c ∈ userID.data, c ≠ '$' ∧ c ≠ '@') (text : List Char) :
    ∀ (k : Nat) (before : List Char),
      regexOccurs ('@' :: name) (replaceMention name (mentionOf userID) k before text)
        = false := by
  have ht : '$' ∉ '<' :: ('@' :: '!' :: (userID.data ++ ['>'])) := by
    simp only [List.mem_cons, List.mem_append, List.mem_singleton, not_or]
    refine ⟨by decide, by decide, by decide, fun hmem => (hid _ hmem).1 rfl, by decide, ?_⟩
    simp
  have hT : mentionOf userID = '<' :: ('@' :: '!' :: (userID.data ++ ['>'])) := by
    simp [mentionOf]
  have hidat : '@' ∉ userID.data := fun hmem => (hid _ hmem).2 rfl
  obtain ⟨p, ps, rfl⟩ := List.exists_cons_of_ne_nil hne
  have hp := wordChar_not_special p (hname p (by simp))
  rw [hT]
  induction text with
  | nil =>
    intro k before
    rw [replaceMention_nil]
    simp [regexOccurs, regexMatchAt]
  | cons c cs ih =>
    intro k before
    cases k with
    | succ k => exact ih k _
    | zero =>
      cases hm : regexMatchAt ('@' :: p :: ps) (c :: cs)
      · rw [replaceMention_no_match _ _ _ _ _ hm]
        simp only [regexOccurs, ih 0, Bool.or_false]
        have h3 := regexMatchAt_replaceMention (p :: ps) _ ht (p :: ps) hname cs (before ++ [c])
        have hm2 := hm
        simp only [regexMatchAt] at hm2 h3 ⊢
        rw [h3]
        exact hm2
      · rw [replaceMention_match _ _ ht _ _ _ hm]
        have hrest := ih (p :: ps).length (before ++ [c])
        have e1 : (lowerChar '@' == lowerChar '<') = false := by decide
        have e2 : (lowerChar '@' == lowerChar '!') = false := by decide
        have e3 : (lowerChar p == lowerChar '!') = false := by
          rw [lowerChar_at.2.2.1]; simp [hp.2.2]
        have e4 : (lowerChar '@' == lowerChar '>') = false := by decide
        have e5 : (lowerChar '@' == lowerChar '@') = true := by decide
        have hgt : regexOccurs ('@' :: p :: ps)
            (userID.data ++ '>' :: replaceMention (p :: ps)
              ('<' :: '@' :: '!' :: (userID.data ++ ['>'])) (p :: ps).length (before ++ [c]) cs)
            = false := by
          rw [regexOccurs_append_plain _ _ _ hidat]
          simp only [regexOccurs, regexMatchAt, e4, Bool.false_and, Bool.false_or]
          exact hrest
        simp only [List.cons_append, List.append_assoc, List.singleton_append, regexOccurs,
          regexMatchAt, e1, e2, e3, e5, Bool.false_and, Bool.true_and, Bool.false_or]
        show regexOccurs _ ((userID.data ++ ['>']) ++ _) = false
        rw [List.append_assoc]
        exact hgt


theorem splitCommas_ne_nil (t : List Char) : splitCommas t ≠ [] := by
  induction t with
  | nil => simp [splitCommas]
  | cons c cs ih =>
    unfold splitCommas
    split
    · simp
    · split <;> simp

theorem splitCommas_append (w rest : List Char) (hw : ',' ∉ w) :
    splitCommas (w ++ ',' :: rest) = w :: splitCommas rest := by
  induction w with
  | nil =>
    simp only [List.nil_append]
    rw [splitCommas]
    cases hr : splitCommas rest with
    | nil => exact absurd hr (splitCommas_ne_nil rest)
    | cons a as => simp
  | cons c cs ih =>
    simp only [List.mem_cons, not_or] at hw
    simp only [List.cons_append]
    rw [splitCommas, ih hw.2]
    simp [Ne.symm hw.1]

theorem splitCommas_nocomma (w : List Char) (hw : ',' ∉ w) : splitCommas w = [w] := by
  induction w with
  | nil => rfl
  | cons c cs ih =>
    simp only [List.mem_cons, not_or] at hw
    unfold splitCommas
    rw [ih hw.2]
    simp [Ne.symm hw.1]

theorem tagList_fold (tags : List (List Char)) :
    ∀ acc : List Char,
      tags.foldl (fun taglist tag => taglist ++ tag.drop 1 ++ [',']) acc
        = acc ++ joinNames (tags.map (List.drop 1)) := by
  induction tags with
  | nil => intro acc; simp [joinNames]
  | cons t ts ih =>
    intro acc
    simp only [List.foldl_cons, List.map_cons, joinNames]
    rw [ih]
    simp

theorem joinNames_ne_nil (n : List Char) (ns : List (List Char)) : joinNames (n :: ns) ≠ [] := by
  simp [joinNames]

/-- The string list that the loop builds splits back into the names it was built from. -/
theorem splitCommas_joinNames (names : List (List Char)) (hne : names ≠ [])
    (hc : ∀ n ∈ names, ',' ∉ n) : splitCommas (joinNames names).dropLast = names := by
  induction names with
  | nil => exact absurd rfl hne
  | cons n ns ih =>
    have hn := hc n (by simp)
    cases ns with
    | nil =>
      have : (joinNames [n]).dropLast = n := by
        simp [joinNames, List.dropLast_concat]
      rw [this, splitCommas_nocomma n hn]
    | cons n2 ns2 =>
      have hrest := ih (by simp) (fun m hm => hc m (by simp [hm]))
      have : (joinNames (n :: n2 :: ns2)).dropLast
          = n ++ ',' :: (joinNames (n2 :: ns2)).dropLast := by
        rw [joinNames]
        rw [List.dropLast_append_of_ne_nil _ (by simp)]
        rw [List.dropLast_cons_of_ne_nil (joinNames_ne_nil n2 ns2)]
      rw [this, splitCommas_append n _ hn, hrest]

/-- Every tag is an `@` followed by a non-empty run of word characters. -/
theorem matchTags_spec (t : List Char) :
    ∀ tag ∈ matchTags t, ∃ w, tag = '@' :: w ∧ w ≠ [] ∧ ∀ c ∈ w, isWordChar c = true := by
  induction t with
  | nil => intro tag htag; simp [matchTags] at htag
  | cons c cs ih =>
    intro tag htag
    unfold matchTags at htag
    split at htag
    · rename_i hc
      rcases List.mem_cons.1 htag with rfl | htag
      · exact ⟨_, rfl, hc.2, fun d hd => List.mem_takeWhile_imp hd⟩
      · exact ih tag htag
    · exact ih tag htag

theorem sqlEq_lower (fold : Bool) (a b : String) (hab : sqlEq fold a b = true) :
    a.data.map lowerChar = b.data.map lowerChar := by
  cases fold
  · simp only [sqlEq, Bool.false_eq_true, if_false, beq_iff_eq] at hab
    rw [hab]
  · simpa [sqlEq] using hab

/-- The usernames that the batch lookup returns are non-empty and made of word characters:
as regular expressions they stand for themselves. -/
theorem selectUsersInSet_username (st : Store) (t : List Char) (r : UserRow)
    (hr : r ∈ st.selectUsersInSet (tagList (matchTags t))) :
    r.username.data ≠ [] ∧ ∀ c ∈ r.username.data, isWordChar c = true := by
  simp only [Store.selectUsersInSet, List.mem_filter, findInSet, Bool.and_eq_true,
    Bool.not_eq_true', List.any_eq_true] at hr
  obtain ⟨_, ⟨hnonempty, _⟩, e, he, heq⟩ := hr
  have hnames : (matchTags t).map (List.drop 1) ≠ [] := by
    intro hnil
    have : matchTags t = [] := by simpa using hnil
    simp [tagList, this] at hnonempty
  have hspec : ∀ n ∈ (matchTags t).map (List.drop 1), n ≠ [] ∧ ∀ c ∈ n, isWordChar c = true := by
    intro n hn
    obtain ⟨tag, htag, rfl⟩ := List.mem_map.1 hn
    obtain ⟨w, rfl, hw, hwc⟩ := matchTags_spec t tag htag
    exact ⟨by simpa using hw, by simpa using hwc⟩
  have hnocomma : ∀ n ∈ (matchTags t).map (List.drop 1), ',' ∉ n := by
    intro n hn hmem
    exact absurd ((hspec n hn).2 _ hmem) (by decide)
  have hsplit : splitCommas (tagList (matchTags t)) = (matchTags t).map (List.drop 1) := by
    have := tagList_fold (matchTags t) []
    simp only [List.nil_append] at this
    rw [tagList, this]
    exact splitCommas_joinNames _ hnames hnocomma
  rw [hsplit] at he
  obtain ⟨hene, hewc⟩ := hspec e he
  have hmap := sqlEq_lower st.foldCase _ _ heq
  simp only at hmap
  constructor
  · intro hnil
    rw [hnil] at hmap
    simp at hmap
    exact hene hmap
  · intro c hc
    have hmem : lowerChar (lowerChar c) ∈ e.map lowerChar := by
      rw [hmap]
      exact List.mem_map_of_mem _ (List.mem_map_of_mem _ hc)
    obtain ⟨a, ha, hac⟩ := List.mem_map.1 hmem
    have := hewc a ha
    rw [← isWordChar_lowerChar a, hac, isWordChar_lowerChar, isWordChar_lowerChar] at this
    exact this


theorem mentionOf_plain (userID : String) (hid : '$' ∉ userID.data) :
    '$' ∉ mentionOf userID := by
  simp only [mentionOf, List.mem_append, not_or]
  exact ⟨⟨by decide, hid⟩, by decide⟩

theorem regexMatchAt_append (pattern xs ys : List Char)
    (hm : regexMatchAt pattern xs = true) : regexMatchAt pattern (xs ++ ys) = true := by
  induction pattern generalizing xs with
  | nil => simp [regexMatchAt]
  | cons p ps ih =>
    cases xs with
    | nil => simp [regexMatchAt] at hm
    | cons x xs =>
      simp only [regexMatchAt, Bool.and_eq_true] at hm
      simp only [List.cons_append, regexMatchAt, Bool.and_eq_true]
      exact ⟨hm.1, ih xs hm.2⟩

/-- Text without `@` is copied as it is. -/
theorem replaceMention_plain (name template xs rest : List Char) (hxs : '@' ∉ xs) :
    ∀ before : List Char,
      replaceMention name template 0 before (xs ++ rest)
        = xs ++ replaceMention name template 0 (before ++ xs) rest := by
  induction xs with
  | nil => intro before; simp
  | cons x xs ih =>
    intro before
    simp only [List.mem_cons, not_or] at hxs
    have hm : regexMatchAt ('@' :: name) (x :: (xs ++ rest)) = false := by
      cases hc : regexMatchAt ('@' :: name) (x :: (xs ++ rest))
      · rfl
      · exact absurd (regexMatchAt_at name x _ hc).1.symm hxs.1
    simp only [List.cons_append]
    rw [replaceMention_no_match _ _ _ _ _ hm, ih hxs.2]
    simp

/-- The characters of a match are passed over. -/
theorem replaceMention_skip (name template xs rest : List Char) :
    ∀ before : List Char,
      replaceMention name template xs.length before (xs ++ rest)
        = replaceMention name template 0 (before ++ xs) rest := by
  induction xs with
  | nil => intro before; simp
  | cons x xs ih =>
    intro before
    simp only [List.length_cons, List.cons_append]
    rw [replaceMention, ih]
    simp

/-- An occurrence of `@name`, in any letter case, that follows text without `@` is
rewritten to the mention of the row, and the text after it is treated in the same way. -/
theorem resolveRow_occurrence (row : UserRow) (hid : '$' ∉ row.userID.data)
    (pre occ post : List Char) (hpre : '@' ∉ pre)
    (hocc : regexMatchAt ('@' :: row.username.data) occ = true)
    (hlen : occ.length = row.username.data.length + 1) :
    resolveRow (pre ++ occ ++ post) row = pre ++ mentionOf row.userID ++ resolveRow post row := by
  have ht := mentionOf_plain row.userID hid
  unfold resolveRow
  rw [List.append_assoc, replaceMention_plain _ _ _ _ hpre]
  cases occ with
  | nil => simp at hlen
  | cons c cs =>
    have hcs : cs.length = row.username.data.length := by simpa using hlen
    have hm := regexMatchAt_append _ _ post hocc
    simp only [List.cons_append] at hm ⊢
    rw [replaceMention_match _ _ ht _ _ _ hm, ← hcs, replaceMention_skip,
      replaceMention_before _ _ ht post 0 _ []]
    simp

/-- The text handed to the webhooks is the text of the event after the turn of every row
of the batch lookup, in the order of the result. -/
theorem onChat_sends (srv : Server) (h : Hub) (data : ChatData) :
    (srv.onChat h data).trace.filter Effect.isPlatformCall
      = h.trace.filter Effect.isPlatformCall ++
        webhookSends srv data.username data.uuid
          (String.mk ((h.store.selectUsersInSet
            (tagList (matchTags (toLowerCase data.message.data)))).foldl resolveRow
              data.message.data)) := by
  have hall : ∀ msg, (webhookSends srv data.username data.uuid msg).filter Effect.isPlatformCall
      = webhookSends srv data.username data.uuid msg := by
    intro msg
    rw [List.filter_eq_self]
    intro e he
    simp only [webhookSends, List.mem_map] at he
    obtain ⟨entry, _, rfl⟩ := he
    rfl
  by_cases htags : matchTags (toLowerCase data.message.data) = []
  · rw [onChat_no_tags srv h data htags]
    simp only [List.filter_append, hall, htags]
    have : h.store.selectUsersInSet (tagList []) = [] := by
      simp [Store.selectUsersInSet, tagList, findInSet]
    rw [this]
    rfl
  · rw [onChat_tags srv h data htags]
    simp [List.filter_append, hall, Effect.isPlatformCall]

/-- C13 fails on the code: `al` (platform user `1`) and `alice` (platform user `2`) are
linked and the lookup returns both, `al` first. In the text `@al @alice` the occurrence
of `@alice` is not replaced by `<@!2>`: the expression built in line 169 has no word
boundary, so the turn of `al` has already rewritten its first three characters, and the
text is relayed as `<@!1> <@!1>ice`. -/
theorem onChat_prefix_account_wins :
    (hubAlAlice.store.selectUsersInSet
        (tagList (matchTags (toLowerCase chatAlAlice.message.data)))).map
          (fun r => (r.username, r.userID)) = [("al", "1"), ("alice", "2")]
      ∧ (srv0.onChat hubAlAlice chatAlAlice).trace.filter Effect.isPlatformCall =
          [Effect.webhookSend "w1" "wt1" "<@!1> <@!1>ice" "Steve"
            "https://minotar.net/cube/S/128.png"] := by
  decide

/-- How the replacement of lines 165-172 runs: the text relayed for a `chat` event is the
text of the event after the turn of every linked account that the batch lookup returns, taken in the order of the
result. The turn of an account `(name, id)`, whose id holds neither `$` nor `@`, rewrites
every occurrence of `@name`, in any letter case, that the text holds at that moment to the
mention `<@!id>`: none is left after its turn, and an occurrence that follows text without
`@` is rewritten in place, the text after it being treated in the same way. -/
theorem onChat_mentions (srv : Server) (h : Hub) (data : ChatData)
    (hids : ∀ r ∈ h.store.selectUsersInSet
        (tagList (matchTags (toLowerCase data.message.data))),
      ∀ c ∈ r.userID.data, c ≠ '$' ∧ c ≠ '@') :
    (srv.onChat h data).trace.filter Effect.isPlatformCall
        = h.trace.filter Effect.isPlatformCall ++
          webhookSends srv data.username data.uuid
            (String.mk ((h.store.selectUsersInSet
              (tagList (matchTags (toLowerCase data.message.data)))).foldl resolveRow
                data.message.data))
      ∧ ∀ rows1 r rows2,
          h.store.selectUsersInSet (tagList (matchTags (toLowerCase data.message.data)))
            = rows1 ++ r :: rows2 →
          regexOccurs ('@' :: r.username.data)
              ((rows1 ++ [r]).foldl resolveRow data.message.data) = false
            ∧ ∀ pre occ post, '@' ∉ pre →
                regexMatchAt ('@' :: r.username.data) occ = true →
                occ.length = r.username.data.length + 1 →
                resolveRow (pre ++ occ ++ post) r
                  = pre ++ mentionOf r.userID ++ resolveRow post r := by
  refine ⟨onChat_sends srv h data, ?_⟩
  intro rows1 r rows2 hrows
  have hr : r ∈ h.store.selectUsersInSet
      (tagList (matchTags (toLowerCase data.message.data))) := by
    rw [hrows]; simp
  obtain ⟨hne, hwc⟩ := selectUsersInSet_username h.store _ r hr
  have hid := hids r hr
  refine ⟨?_, ?_⟩
  · rw [List.foldl_append]
    simp only [List.foldl_cons, List.foldl_nil, resolveRow]
    exact regexOccurs_replaceMention r.username.data r.userID hwc hne hid _ 0 []
  · intro pre occ post hpre hocc hlen
    exact resolveRow_occurrence r (fun hmem => (hid _ hmem).1 rfl) pre occ post hpre hocc hlen

theorem onChat_mentions_witness :
    (srv0.onChat hubAlice chatAlice).trace.filter Effect.isPlatformCall =
        [Effect.webhookSend "w1" "wt1" "hi <@!u> and <@!u>" "Steve"
          "https://minotar.net/cube/S/128.png"]
      ∧ regexOccurs "@alice".data "hi <@!u> and <@!u>".data = false :=
  have key := onChat_mentions srv0 hubAlice chatAlice (by decide)
  ⟨by decide, (key.2 [] (UserRow.mk "Ann" "u" "role1" "g1" "alice" "A") [] (by decide)).1⟩


/-- A run of word characters that matches at the start of a text followed by something
that is no word character matches inside that text. -/
theorem regexMatchAt_within (w : List Char) (hw : ∀ c ∈ w, isWordChar c = true) :
    ∀ (xs rest : List Char), (∀ c, rest.head? = some c → isWordChar c = false) →
      regexMatchAt w (xs ++ rest) = true →
      regexMatchAt w xs = true ∧ w.length ≤ xs.length := by
  induction w with
  | nil => intro xs rest _ _; simp [regexMatchAt]
  | cons p ps ih =>
    intro xs rest hrest hm
    have hp := hw p (by simp)
    have hps : ∀ c ∈ ps, isWordChar c = true := fun c hc => hw c (by simp [hc])
    cases xs with
    | nil =>
      cases rest with
      | nil => simp [regexMatchAt] at hm
      | cons c cs =>
        simp only [List.nil_append, regexMatchAt, Bool.and_eq_true, beq_iff_eq] at hm
        have := wordChar_of_match p c hp hm.1
        rw [hrest c rfl] at this
        exact absurd this (by decide)
    | cons x xs =>
      simp only [List.cons_append, regexMatchAt, Bool.and_eq_true] at hm
      obtain ⟨h1, h2⟩ := ih hps xs rest hrest hm.2
      simp only [regexMatchAt, Bool.and_eq_true, List.length_cons]
      exact ⟨⟨hm.1, h1⟩, by omega⟩

/-- The rewriting of the text before an `@` does not reach that `@`. -/
theorem replaceMention_split (name template : List Char) (ht : '$' ∉ template)
    (hname : ∀ c ∈ name, isWordChar c = true) (rest : List Char) (pre : List Char) :
    ∀ (k : Nat) (before : List Char), k ≤ pre.length →
      replaceMention name template k before (pre ++ '@' :: rest)
        = replaceMention name template k before pre
          ++ replaceMention name template 0 [] ('@' :: rest) := by
  have hat : ∀ c, ('@' :: rest).head? = some c → isWordChar c = false := by
    intro c hc
    simp only [List.head?_cons, Option.some.injEq] at hc
    subst hc
    decide
  induction pre with
  | nil =>
    intro k before hk
    have : k = 0 := by simpa using hk
    subst this
    rw [replaceMention_nil]
    exact replaceMention_before _ _ ht _ 0 _ _
  | cons c cs ih =>
    intro k before hk
    cases k with
    | succ k =>
      simp only [List.cons_append]
      rw [replaceMention, replaceMention]
      exact ih k _ (by simpa using hk)
    | zero =>
      simp only [List.cons_append]
      cases hm : regexMatchAt ('@' :: name) (c :: (cs ++ '@' :: rest))
      · have hm2 : regexMatchAt ('@' :: name) (c :: cs) = false := by
          cases hc : regexMatchAt ('@' :: name) (c :: cs)
          · rfl
          · have := regexMatchAt_append _ _ ('@' :: rest) hc
            simp only [List.cons_append] at this
            rw [this] at hm
            exact absurd hm (by decide)
        rw [replaceMention_no_match _ _ _ _ _ hm, replaceMention_no_match _ _ _ _ _ hm2,
          ih 0 _ (Nat.zero_le _)]
        rfl
      · obtain ⟨hc, hmn⟩ := regexMatchAt_at name c _ hm
        obtain ⟨h1, h2⟩ := regexMatchAt_within name hname cs ('@' :: rest) hat hmn
        have hm2 : regexMatchAt ('@' :: name) (c :: cs) = true := by
          simp only [regexMatchAt, Bool.and_eq_true] at hm ⊢
          exact ⟨hm.1, h1⟩
        rw [replaceMention_match _ _ ht _ _ _ hm, replaceMention_match _ _ ht _ _ _ hm2,
          ih name.length _ h2]
        simp

/-- A token `@word` of which `name` is no prefix is copied as it is. -/
theorem replaceMention_token (name template : List Char) (ht : '$' ∉ template)
    (hname : ∀ c ∈ name, isWordChar c = true) (word post : List Char)
    (hword : ∀ c ∈ word, isWordChar c = true)
    (hmax : ∀ c, post.head? = some c → isWordChar c = false)
    (hno : regexMatchAt name word = false) :
    replaceMention name template 0 [] ('@' :: (word ++ post))
      = '@' :: (word ++ replaceMention name template 0 [] post) := by
  have hm : regexMatchAt ('@' :: name) ('@' :: (word ++ post)) = false := by
    cases hc : regexMatchAt ('@' :: name) ('@' :: (word ++ post))
    · rfl
    · obtain ⟨_, hmn⟩ := regexMatchAt_at name _ _ hc
      have := (regexMatchAt_within name hname word post hmax hmn).1
      rw [hno] at this
      exact absurd this (by decide)
  have hwat : '@' ∉ word := fun hmem => absurd (hword _ hmem) (by decide)
  rw [replaceMention_no_match _ _ _ _ _ hm, replaceMention_plain _ _ _ _ hwat,
    replaceMention_before _ _ ht post 0 _ []]

theorem replaceMention_head (name rest : List Char) (ht : '$' ∉ '<' :: rest)
    (post : List Char) (hmax : ∀ c, post.head? = some c → isWordChar c = false) :
    ∀ c, (replaceMention name ('<' :: rest) 0 [] post).head? = some c →
      isWordChar c = false := by
  cases post with
  | nil => intro c hc; rw [replaceMention_nil] at hc; simp at hc
  | cons x xs =>
    intro c hc
    cases hm : regexMatchAt ('@' :: name) (x :: xs)
    · rw [replaceMention_no_match _ _ _ _ _ hm] at hc
      simp only [List.head?_cons, Option.some.injEq] at hc
      subst hc
      exact hmax x rfl
    · rw [replaceMention_match _ _ ht _ _ _ hm] at hc
      simp only [List.cons_append, List.head?_cons, Option.some.injEq] at hc
      subst hc
      decide

/-- The turn of one row keeps a token of which its username is no prefix, and treats the
text before and after the token on their own. -/
theorem resolveRow_token (row : UserRow) (hid : '$' ∉ row.userID.data)
    (hname : ∀ c ∈ row.username.data, isWordChar c = true)
    (pre word post : List Char) (hword : ∀ c ∈ word, isWordChar c = true)
    (hmax : ∀ c, post.head? = some c → isWordChar c = false)
    (hno : regexMatchAt row.username.data word = false) :
    resolveRow (pre ++ '@' :: (word ++ post)) row
      = resolveRow pre row ++ '@' :: (word ++ resolveRow post row) := by
  have ht := mentionOf_plain row.userID hid
  unfold resolveRow
  rw [replaceMention_split _ _ ht hname _ pre 0 [] (Nat.zero_le _),
    replaceMention_token _ _ ht hname word post hword hmax hno]

/-- The turns of all rows keep a token of which no username is a prefix. -/
theorem resolveRows_token (word : List Char) (hword : ∀ c ∈ word, isWordChar c = true)
    (rows : List UserRow)
    (hrows : ∀ r ∈ rows, '$' ∉ r.userID.data ∧ (∀ c ∈ r.username.data, isWordChar c = true)
      ∧ regexMatchAt r.username.data word = false) :
    ∀ (pre post : List Char), (∀ c, post.head? = some c → isWordChar c = false) →
      rows.foldl resolveRow (pre ++ '@' :: (word ++ post))
        = rows.foldl resolveRow pre ++ '@' :: (word ++ rows.foldl resolveRow post) := by
  induction rows with
  | nil => intro pre post _; rfl
  | cons r rs ih =>
    intro pre post hmax
    obtain ⟨hid, hname, hno⟩ := hrows r (by simp)
    simp only [List.foldl_cons]
    rw [resolveRow_token r hid hname pre word post hword hmax hno]
    apply ih (fun r2 hr2 => hrows r2 (by simp [hr2]))
    have ht := mentionOf_plain r.userID hid
    have hT : mentionOf r.userID = '<' :: ('@' :: '!' :: (r.userID.data ++ ['>'])) := by
      simp [mentionOf]
    unfold resolveRow
    rw [hT] at ht ⊢
    exact replaceMention_head _ _ ht post hmax

/-- C14 fails on the code: `al` is the only linked player, so `alice` is the username of no
linked account. The tags are found and looked up as whole tokens (`@al` and `@alice`),
but line 169 replaces `@al` wherever these characters stand: in the text `@al @alice`
the token `@alice` does not come out as it was written, and the text is relayed as
`<@!1> <@!1>ice`. -/
theorem onChat_unresolved_token_rewritten :
    (hubAl.store.users.all fun r =>
        !(r.username.data.map lowerChar == "alice".data.map lowerChar)) = true
      ∧ (srv0.onChat hubAl chatAlAlice).trace.filter Effect.isPlatformCall =
          [Effect.webhookSend "w1" "wt1" "<@!1> <@!1>ice" "Steve"
            "https://minotar.net/cube/S/128.png"]
      ∧ regexOccurs "@alice".data "<@!1> <@!1>ice".data = false := by
  decide

/-- Where the missing word boundary does no harm: a token `@word` of the chat text (`@`, a
run of word characters, then the end of the text or a character that is no word
character) is relayed in its place exactly as it was written, whatever happens to the
other tokens, if no username returned by the batch lookup is, letter case ignored, a
prefix of `word` (the ids of the returned accounts holding no `$`): the relayed text is
the rewritten text before the token, the token, and the rewritten text after it. -/
theorem onChat_keeps_token (srv : Server) (h : Hub) (data : ChatData)
    (pre word post : List Char)
    (htext : data.message.data = pre ++ '@' :: (word ++ post))
    (hword : ∀ c ∈ word, isWordChar c = true)
    (hmax : ∀ c, post.head? = some c → isWordChar c = false)
    (hrows : ∀ r ∈ h.store.selectUsersInSet
        (tagList (matchTags (toLowerCase data.message.data))),
      '$' ∉ r.userID.data ∧ regexMatchAt r.username.data word = false) :
    (srv.onChat h data).trace.filter Effect.isPlatformCall
      = h.trace.filter Effect.isPlatformCall ++
        webhookSends srv data.username data.uuid
          (String.mk
            ((h.store.selectUsersInSet
                (tagList (matchTags (toLowerCase data.message.data)))).foldl resolveRow pre
              ++ '@' :: (word ++
                (h.store.selectUsersInSet
                  (tagList (matchTags (toLowerCase data.message.data)))).foldl resolveRow
                    post))) := by
  rw [onChat_sends srv h data, htext]
  rw [resolveRows_token word hword _ _ pre post hmax]
  intro r hr
  rw [← htext] at hr
  exact ⟨(hrows r hr).1, (selectUsersInSet_username h.store _ r hr).2, (hrows r hr).2⟩

theorem onChat_keeps_token_witness :
    (srv0.onChat hubAlice (ChatData.mk "@alice and @bob!" "Steve" "S")).trace.filter
        Effect.isPlatformCall
      = [Effect.webhookSend "w1" "wt1" "<@!u> and @bob!" "Steve"
          "https://minotar.net/cube/S/128.png"] :=
  onChat_keeps_token srv0 hubAlice (ChatData.mk "@alice and @bob!" "Steve" "S")
    "@alice and ".data "bob".data "!".data (by decide) (by decide) (by decide) (by decide)


theorem matchTags_cons_nil (c : Char) (cs : List Char) :
    matchTags (c :: cs) = []
      ↔ ¬ (c = '@' ∧ ∃ d ds, cs = d :: ds ∧ isWordChar d = true) ∧ matchTags cs = [] := by
  have htake : cs.takeWhile isWordChar ≠ [] ↔ ∃ d ds, cs = d :: ds ∧ isWordChar d = true := by
    cases cs with
    | nil => simp
    | cons d ds =>
      cases hd : isWordChar d <;> simp [List.takeWhile, hd]
  rw [matchTags]
  by_cases hc : c = '@' ∧ cs.takeWhile isWordChar ≠ []
  · rw [if_pos hc]
    constructor
    · intro h; exact absurd h (List.cons_ne_nil _ _)
    · intro h; exact absurd ⟨hc.1, htake.1 hc.2⟩ h.1
  · rw [if_neg hc]
    constructor
    · intro h; exact ⟨fun h2 => hc ⟨h2.1, htake.2 h2.2⟩, h⟩
    · intro h; exact h.2

/-- On a text without the characters U+212A and U+0130 the listener finds a tag exactly
when the text itself holds an `@` followed by a word character. -/
theorem matchTags_toLowerCase (t : List Char)
    (ht : ∀ c ∈ t, c ≠ Char.ofNat 0x212A ∧ c ≠ Char.ofNat 0x130) :
    matchTags (toLowerCase t) = [] ↔ matchTags t = [] := by
  have hmap : ∀ l : List Char, (∀ c ∈ l, c ≠ Char.ofNat 0x212A ∧ c ≠ Char.ofNat 0x130) →
      toLowerCase l = l.map lowerChar := by
    intro l
    induction l with
    | nil => intro _; rfl
    | cons c cs ih =>
      intro hl
      have hc := hl c (by simp)
      rw [toLowerCase]
      simp only [hc.1, hc.2, if_false, List.map_cons]
      rw [ih (fun d hd => hl d (by simp [hd]))]
  rw [hmap t ht]
  clear hmap ht
  induction t with
  | nil => simp [matchTags]
  | cons c cs ih =>
    rw [List.map_cons, matchTags_cons_nil, matchTags_cons_nil]
    have hat : lowerChar c = '@' ↔ c = '@' :=
      ⟨lowerChar_eq_at c, fun hc => by rw [hc]; exact lowerChar_at.1⟩
    have hhead : (∃ d ds, cs.map lowerChar = d :: ds ∧ isWordChar d = true)
        ↔ ∃ d ds, cs = d :: ds ∧ isWordChar d = true := by
      cases cs with
      | nil => simp
      | cons d ds => simp [isWordChar_lowerChar]
    exact and_congr (not_congr (and_congr hat hhead)) ih

/-! ## Role events -/

/-- What the listener of `removerole` does: after the lookup of the uuid on the peer, if a
linked account is there, the one platform call is `addToRole` for the platform user of the
first row and `removerolecb` is emitted with `success: true`; if none is there, no
platform call is made and `removerolecb` is emitted with `success: false`. The store is
not changed. -/
theorem onRemoveRole_effect (srv : Server) (h : Hub) (data : RemoveRoleData) :
    (srv.onRemoveRole h data).store = h.store
      ∧ (∀ row rest, h.store.selectUsersByUuid (some data.uuid) srv.serverID = row :: rest →
          (srv.onRemoveRole h data).trace = h.trace ++
            [Effect.query userIDQueryText [Atom.str data.uuid, Atom.str srv.serverID],
              Effect.addToRole row.userID srv.serverID data.roleID,
              Effect.emit srv.socket "removerolecb"
                [("uuid", Val.atom (Atom.str data.uuid)),
                  ("roleID", Val.atom (Atom.str data.roleID)),
                  ("success", Val.atom (Atom.bool true))]])
      ∧ (h.store.selectUsersByUuid (some data.uuid) srv.serverID = [] →
          (srv.onRemoveRole h data).trace = h.trace ++
            [Effect.query userIDQueryText [Atom.str data.uuid, Atom.str srv.serverID],
              Effect.emit srv.socket "removerolecb"
                [("uuid", Val.atom (Atom.str data.uuid)),
                  ("roleID", Val.atom (Atom.str data.roleID)),
                  ("success", Val.atom (Atom.bool false))]]) := by
  refine ⟨?_, ?_, ?_⟩
  · unfold Server.onRemoveRole
    simp only [Hub.push]
    split <;> rfl
  · intro row rest hsel
    simp [Server.onRemoveRole, Hub.push, hsel]
  · intro hsel
    simp [Server.onRemoveRole, Hub.push, hsel]

/-- C21 fails on the code: the player with uuid `A` is linked to platform user `u1` on
`g1`; on `removerole` for role `r5` the platform is asked to add `u1` to role `r5`, the same
call that `addrole` makes, and `removerolecb` reports success. No removal is asked for. -/
theorem onRemoveRole_grants_role :
    hubLinked.store.selectUsersByUuid (some "A") "g1" = [accountA]
      ∧ (srv0.onRemoveRole hubLinked removeRoleA).trace.filter Effect.isPlatformCall
          = [Effect.addToRole "u1" "g1" "r5"]
      ∧ (srv0.onAddRole hubLinked (AddRoleData.mk "A" "r5")).trace.filter
          Effect.isPlatformCall = [Effect.addToRole "u1" "g1" "r5"]
      ∧ emitsOn srv0.socket (srv0.onRemoveRole hubLinked removeRoleA).trace
          = [("removerolecb", [("uuid", Val.atom (Atom.str "A")),
              ("roleID", Val.atom (Atom.str "r5")),
              ("success", Val.atom (Atom.bool true))])] := by
  decide

/-! ## The name spliced into the LIKE query -/

theorem escapeUnderscores_chars (l : List Char) :
    ∀ c ∈ escapeUnderscores l, c = '!' ∨ c ∈ l := by
  induction l with
  | nil => intro c hc; simp [escapeUnderscores] at hc
  | cons x xs ih =>
    intro c hc
    unfold escapeUnderscores at hc
    split at hc
    · rename_i hx
      simp only [List.mem_cons] at hc
      rcases hc with rfl | rfl | hc
      · exact Or.inl rfl
      · exact Or.inr (by simp [hx])
      · rcases ih c hc with h1 | h1
        · exact Or.inl h1
        · exact Or.inr (by simp [h1])
    · simp only [List.mem_cons] at hc
      rcases hc with rfl | hc
      · exact Or.inr (by simp)
      · rcases ih c hc with h1 | h1
        · exact Or.inl h1
        · exact Or.inr (by simp [h1])

/-- Lower-casing a character of `[a-zA-Z0-9_]` gives a character of `[a-z0-9_]`. -/
theorem lowerChar_wordChar_range (c : Char) (hw : isWordChar c = true) :
    (97 ≤ (lowerChar c).toNat ∧ (lowerChar c).toNat ≤ 122)
      ∨ (48 ≤ (lowerChar c).toNat ∧ (lowerChar c).toNat ≤ 57) ∨ lowerChar c = '_' := by
  unfold lowerChar
  split
  · rename_i hr
    obtain ⟨h1, h2⟩ := hr
    generalize c.toNat = n at h1 h2
    interval_cases n <;> decide
  · rename_i hr
    simp only [isWordChar, Bool.or_eq_true, Bool.and_eq_true, decide_eq_true_eq,
      beq_iff_eq] at hw
    rcases hw with ((h1 | h1) | h1) | h1
    · exact Or.inl h1
    · exact absurd h1 hr
    · exact Or.inr (Or.inl h1)
    · exact Or.inr (Or.inr h1)

/-- C22: for every argument of `!verify`, the name spliced into the query text (the
argument stripped of what is outside `[a-zA-Z0-9_]`, with `!_` for every `_`, lower-cased)
is made of characters of `[a-z0-9_!]` only. It therefore holds no apostrophe, double
quote, backslash or `%`; the text of the query is the fixed template around that name
followed by `%`, with its two apostrophes and no other, and this is the text that the
`!verify` branch hands to the store. -/
theorem sanitiseName_safe (arg : List Char) :
    (∀ c ∈ sanitiseName arg,
        (97 ≤ c.toNat ∧ c.toNat ≤ 122) ∨ (48 ≤ c.toNat ∧ c.toNat ≤ 57) ∨ c = '_' ∨ c = '!')
      ∧ Char.ofNat 39 ∉ sanitiseName arg ∧ Char.ofNat 34 ∉ sanitiseName arg
      ∧ '\\' ∉ sanitiseName arg ∧ '%' ∉ sanitiseName arg
      ∧ (likeQueryText (sanitiseName arg)).data
          = "SELECT * FROM `users` WHERE `username` LIKE ".data ++ [Char.ofNat 39]
            ++ sanitiseName arg ++ ['%', Char.ofNat 39] ++ " AND `serverID` = ?;".data
      ∧ (likeQueryText (sanitiseName arg)).data.count (Char.ofNat 39) = 2
      ∧ ∀ (h : Hub) (server : Server) (m : BotMessage),
          ((onVerifyCommand h server m [arg]).trace.drop h.trace.length).head?
            = some (Effect.query (likeQueryText (sanitiseName arg)) [Atom.str m.guildID]) := by
  have hchars : ∀ c ∈ sanitiseName arg,
      (97 ≤ c.toNat ∧ c.toNat ≤ 122) ∨ (48 ≤ c.toNat ∧ c.toNat ≤ 57) ∨ c = '_' ∨ c = '!' := by
    intro c hc
    simp only [sanitiseName, List.mem_map] at hc
    obtain ⟨d, hd, rfl⟩ := hc
    rcases escapeUnderscores_chars _ d hd with rfl | hmem
    · exact Or.inr (Or.inr (Or.inr (by decide)))
    · rcases lowerChar_wordChar_range d (List.mem_filter.1 hmem).2 with h1 | h1 | h1
      · exact Or.inl h1
      · exact Or.inr (Or.inl h1)
      · exact Or.inr (Or.inr (Or.inl h1))
  have hnot : ∀ x : Char,
      ¬ ((97 ≤ x.toNat ∧ x.toNat ≤ 122) ∨ (48 ≤ x.toNat ∧ x.toNat ≤ 57) ∨ x = '_' ∨ x = '!') →
      x ∉ sanitiseName arg := fun x hx hmem => hx (hchars x hmem)
  have h39 : Char.ofNat 39 ∉ sanitiseName arg := hnot _ (by decide)
  have hdata : (likeQueryText (sanitiseName arg)).data
      = "SELECT * FROM `users` WHERE `username` LIKE ".data ++ [Char.ofNat 39]
        ++ sanitiseName arg ++ ['%', Char.ofNat 39] ++ " AND `serverID` = ?;".data := by
    simp only [likeQueryText, String.data_append]
    simp only [List.append_assoc]
    rfl
  refine ⟨hchars, h39, hnot _ (by decide), hnot _ (by decide), hnot _ (by decide), hdata, ?_, ?_⟩
  · rw [hdata]
    simp only [List.count_append, List.count_eq_zero_of_not_mem h39]
    decide
  · intro h server m
    unfold onVerifyCommand
    simp only [Hub.push]
    split <;> simp

end NewBot
